import Mathlib

/-!
Verification development for the gnu_pymp3frame repository (an MPEG audio
framing library).  The Python sources under src/ are shallowly embedded:
byte strings become `List Nat` (each element < 256), Python ints that can
be negative become `Int`, functions that can raise become `Option`-valued,
and the mutable `BaseSync`/`PhysicalFrameSync` objects become explicit
state records with pure transition functions.
-/

namespace Mp3

/-! ## mp3bits (src/mp3frame/mp3bits.py) -/

/-- Bitrate table rows, in kbps, indexed by `bitrate_index - 1`.
Transcribes `_br_v1L1 .. _br_v2L3` and the `_br_tables` dispatch of
src/mp3frame/mp3bits.py lines 52-67 (MPEG2 and MPEG2.5 share rows). -/
def br_table (version_index layer_index : Nat) : List Nat :=
  if version_index = 3 then
    match layer_index with
    | 1 => [32, 40, 48, 56, 64, 80, 96, 112, 128, 160, 192, 224, 256, 320]
    | 2 => [32, 48, 56, 64, 80, 96, 112, 128, 160, 192, 224, 256, 320, 384]
    | _ => [32, 64, 96, 128, 160, 192, 224, 256, 288, 320, 352, 384, 416, 448]
  else
    match layer_index with
    | 3 => [32, 48, 56, 64, 80, 96, 112, 128, 144, 160, 176, 192, 224, 256]
    | _ => [8, 16, 24, 32, 40, 48, 56, 64, 80, 96, 112, 128, 144, 160]

/-- Embeds `bitrate` (src/mp3frame/mp3bits.py lines 119-127).  The outer
`none` models the raised `MP3ReservedError`; `some none` models the Python
return value `None` (free format, `bitrate_index = 0`); `some (some n)`
is the bitrate in bits per second (the tables store kbps times 1000). -/
def bitrate (version_index layer_index bitrate_index : Nat) : Option (Option Nat) :=
  if version_index = 1 ∨ layer_index = 0 ∨ bitrate_index = 15 then none
  else some (if bitrate_index = 0 then none
             else some ((br_table version_index layer_index).getD (bitrate_index - 1) 0 * 1000))

/-- Embeds the `_sr_table` lookup of `samplerate` (src/mp3frame/mp3bits.py
lines 69-74 and 102-116); `none` models a raised error (reserved value). -/
def samplerate (version_index samplerate_index : Nat) : Option Nat :=
  if 3 < samplerate_index ∨ 3 < version_index then none
  else
    (match version_index with
     | 0 => [some 11025, some 12000, some 8000, none]
     | 1 => [none, none, none, none]
     | 2 => [some 22050, some 24000, some 16000, none]
     | _ => [some 44100, some 48000, some 32000, none]).getD samplerate_index none

/-- Embeds `samples_per_frame` via `_spf_table` (src/mp3frame/mp3bits.py
lines 77-99); `none` models a raised error (reserved version or layer). -/
def samples_per_frame (version_index layer_index : Nat) : Option Nat :=
  if 3 < version_index ∨ 3 < layer_index then none
  else
    (match version_index with
     | 0 => [none, some 576, some 1152, some 384]
     | 1 => [none, none, none, none]
     | 2 => [none, some 576, some 1152, some 384]
     | _ => [none, some 1152, some 1152, some 384]).getD layer_index none

/-- Embeds `sample_size` (src/mp3frame/mp3bits.py lines 130-141);
`none` models a raised error (layer 0 reserved, other values invalid). -/
def sample_size (layer_index : Nat) : Option Nat :=
  if layer_index = 1 then some 1
  else if layer_index = 2 then some 1
  else if layer_index = 3 then some 4
  else none

/-- Embeds `frame_size` (src/mp3frame/mp3bits.py lines 144-167).  The code
computes `ss = sample_size(layer)` then overwrites it with `ss = 1` (or 4
for layer 1) and assigns `mult` without ever using it; the returned value
is `((spf // (ss * 8)) * br // sr) + ((padding != 0) * ss)`.  The outer
`none` models a raised reserved-value error, `some none` the Python `None`
for a free-format frame. -/
def frame_size (version_index layer_index bitrate_index samplerate_index padding : Nat) :
    Option (Option Nat) :=
  match bitrate version_index layer_index bitrate_index with
  | none => none
  | some none => some none
  | some (some br) =>
    match samples_per_frame version_index layer_index,
          samplerate version_index samplerate_index,
          sample_size layer_index with
    | some spf, some sr, some _ =>
      let ss := if layer_index = 3 then 4 else 1
      some (some ((spf / (ss * 8)) * br / sr + (if padding ≠ 0 then 1 else 0) * ss))
    | _, _, _ => none

/-- Clearly named rendition of the frame-length formula in the SPEC's own
words (spec.md section 4.1): mult = 12 and ss = 4 for Layer 1; mult = 72
and ss = 1 for MPEG2/2.5 Layer 3; mult = 144 and ss = 1 otherwise; length
is `((mult * kbps * 1000) / sr) * ss + (padded ? ss : 0)` with integer
truncation in the inner division.  It exists only to be compared with the
source-derived `frame_size` above. -/
def frame_size_spec (version_index layer_index bitrate_index samplerate_index padding : Nat) :
    Option (Option Nat) :=
  match bitrate version_index layer_index bitrate_index with
  | none => none
  | some none => some none
  | some (some br) =>
    match samplerate version_index samplerate_index with
    | some sr =>
      let ss := if layer_index = 3 then 4 else 1
      let mult := if layer_index = 3 then 12
                  else if layer_index = 1 ∧ version_index ≠ 3 then 72
                  else 144
      some (some ((mult * br / sr) * ss + (if padding ≠ 0 then 1 else 0) * ss))
    | none => none

/-- Embeds `side_info_size` (src/mp3frame/mp3bits.py lines 213-224):
`_side_info_size = ((32, 17), (17, 9))` indexed by lsf and mono. -/
def side_info_size (version_index channel_mode : Nat) : Nat :=
  if version_index ≠ 3 then (if channel_mode = 3 then 9 else 17)
  else (if channel_mode = 3 then 17 else 32)

/-- Embeds `side_info_bit_offsets` (src/mp3frame/mp3bits.py lines 227-239):
bit offsets of each granule's `part2_3_length` field in the side info. -/
def side_info_bit_offsets (version_index channel_mode : Nat) : List Nat :=
  if version_index ≠ 3 then (if channel_mode = 3 then [9] else [10, 73])
  else (if channel_mode = 3 then [18, 77] else [20, 79, 138, 197])

/-! ## Bit-field reads (src/mp3frame/bitfields.py) -/

/-- Entry of `_high0_mask` (src/mp3frame/bitfields.py line 22). -/
def high0_mask (x : Nat) : Nat := 0xff >>> x

/-- Entry of `_high1_mask` (src/mp3frame/bitfields.py line 23). -/
def high1_mask (x : Nat) : Nat := (0xff00 >>> x) &&& 0xff

/-- Read of a bit field at (offset, bits) over a byte list, embedding the
getter produced by `make_property` (src/mp3frame/bitfields.py lines 27-69:
`get_simple` when the field lies in one byte, otherwise `get_multibyte`;
`start_bits = 8 - offset % 8` is always nonzero so `get_multibyte` always
takes its first branch). -/
def getBitField (data : List Nat) (offset bits : Nat) : Nat :=
  let start := offset / 8
  let endOff := offset + bits
  let e := endOff / 8
  let endBits := endOff % 8
  let shift := 8 - endBits
  if start = e then
    (data.getD start 0 &&& (high1_mask bits >>> (offset % 8))) >>> shift
  else
    let v0 := data.getD start 0 &&& high0_mask (offset % 8)
    let v1 := (List.range (e - (start + 1))).foldl
      (fun v i => (v <<< 8) ||| data.getD (start + 1 + i) 0) v0
    if endBits ≠ 0 then (v1 <<< endBits) ||| (data.getD e 0 >>> shift) else v1

/-! ## SideInfo (src/mp3frame/side_info.py) -/

/-- Layer-3 side info: the dynamically generated SideInfo classes of
src/mp3frame/side_info.py reduce to the raw bytes plus the (version,
channel mode) pair that selects field offsets and widths. -/
structure SideInfo where
  version_index : Nat
  channel_mode : Nat
  raw_data : List Nat
deriving DecidableEq

/-- The `main_data_begin` property (src/mp3frame/side_info.py lines
264-265): bit field at offset 0, 8 bits for lsf and 9 bits for MPEG1. -/
def si_main_data_begin (si : SideInfo) : Nat :=
  getBitField si.raw_data 0 (if si.version_index ≠ 3 then 8 else 9)

/-- The `part2_3_bytes` property (`_calc_part2_3_bytes`,
src/mp3frame/side_info.py lines 188-198): ceiling of the summed
12-bit `part2_3_length` fields divided by 8. -/
def si_part2_3_bytes (si : SideInfo) : Nat :=
  ((side_info_bit_offsets si.version_index si.channel_mode).foldl
    (fun acc off => acc + getBitField si.raw_data off 12) 0 + 7) / 8

/-- The `part2_3_end` property (src/mp3frame/side_info.py lines 199-200):
`part2_3_bytes - main_data_begin`, possibly negative. -/
def si_part2_3_end (si : SideInfo) : Int :=
  (si_part2_3_bytes si : Int) - (si_main_data_begin si : Int)

/-! ## FrameHeader (src/mp3frame/frames.py lines 217-289) -/

/-- Decoded frame header.  `raw_data` mirrors the `raw_data` slot (set by
`_decode` to the first 4 input bytes).  The Python slot `private` is named
`priv` here because `private` is a Lean keyword. -/
structure FrameHeader where
  version_index : Nat
  layer_index : Nat
  protection_bit : Nat
  bitrate_index : Nat
  samplerate_index : Nat
  padded : Nat
  priv : Nat
  channel_mode : Nat
  mode_extension : Nat
  copy_control : Nat
  original : Nat
  emphasis : Nat
  raw_data : List Nat
deriving DecidableEq

/-- Embeds `FrameHeader.__init__` with a given byte list followed by
`_decode` (src/mp3frame/frames.py lines 223-230 and 246-266): `none`
models the `ValueError` raised for fewer than 4 bytes, otherwise every
bit field is populated with no further validation. -/
def FrameHeader.ofBytes (data : List Nat) : Option FrameHeader :=
  if data.length < 4 then none
  else
    let d1 := data.getD 1 0
    let d2 := data.getD 2 0
    let d3 := data.getD 3 0
    some { version_index := (d1 >>> 3) &&& 3
           layer_index := (d1 >>> 1) &&& 3
           protection_bit := d1 &&& 1
           bitrate_index := d2 >>> 4
           samplerate_index := (d2 >>> 2) &&& 3
           padded := (d2 >>> 1) &&& 1
           priv := d2 &&& 1
           channel_mode := d3 >>> 6
           mode_extension := (d3 >>> 4) &&& 3
           copy_control := (d3 >>> 3) &&& 1
           original := (d3 >>> 2) &&& 1
           emphasis := d3 &&& 3
           raw_data := data.take 4 }

/-- Embeds `FrameHeader.encode` (src/mp3frame/frames.py lines 268-289):
`none` models the `ValueError` raised by `mask` when a field exceeds its
width; otherwise the four rebuilt header bytes are returned (the Python
code writes them into `raw_data`, which `_decode` made 4 bytes long). -/
def FrameHeader.encode (h : FrameHeader) : Option (List Nat) :=
  if 3 < h.version_index ∨ 3 < h.layer_index ∨ 1 < h.protection_bit ∨
     15 < h.bitrate_index ∨ 3 < h.samplerate_index ∨ 1 < h.padded ∨
     1 < h.priv ∨ 3 < h.channel_mode ∨ 3 < h.mode_extension ∨
     1 < h.copy_control ∨ 1 < h.original ∨ 3 < h.emphasis then none
  else some
    [0xff,
     0xe0 ||| (h.version_index <<< 3) ||| (h.layer_index <<< 1) ||| h.protection_bit,
     (h.bitrate_index <<< 4) ||| (h.samplerate_index <<< 2) ||| (h.padded <<< 1) ||| h.priv,
     (h.channel_mode <<< 6) ||| (h.mode_extension <<< 4) ||| (h.copy_control <<< 3)
       ||| (h.original <<< 2) ||| h.emphasis]

/-- The derived `frame_size` header property.  It is absent from the new
`FrameHeader` class; src/mp3frame.py lines 75-92 define it on the legacy
`Header` class as `mp3bits.frame_size` applied to the decoded fields, and
src/mp3frame/sync.py line 257 relies on it. -/
def headerFrameSize (h : FrameHeader) : Option (Option Nat) :=
  frame_size h.version_index h.layer_index h.bitrate_index h.samplerate_index h.padded

/-- The derived `side_info_size` header property (src/mp3frame.py lines
93-94): `mp3bits.side_info_size(version_index, channel_mode)`. -/
def headerSideInfoSize (h : FrameHeader) : Nat :=
  side_info_size h.version_index h.channel_mode

/-- The derived `bitrate` header property (src/mp3frame.py lines 121-122):
`mp3bits.bitrate(version_index, layer_index, bitrate_index)`. -/
def headerBitrate (h : FrameHeader) : Option (Option Nat) :=
  bitrate h.version_index h.layer_index h.bitrate_index

/-! ## CRC-16 (src/mp3frame/frames.py lines 381-414) -/

/-- One iteration of the `crc16_bits` loop body for input bit `b`
(src/mp3frame/frames.py lines 393-401); the polynomial is 0x8005.
The Python condition `((val & mask) >> bits) ^ (crc >> 15)` tests
truthiness of an integer xor, i.e. being nonzero. -/
def crcStep (c b : Nat) : Nat :=
  if (b ^^^ (c >>> 15)) ≠ 0 then ((c &&& 0x7fff) <<< 1) ^^^ 0x8005
  else (c &&& 0x7fff) <<< 1

/-- Embeds `crc16_bits(val, bits, start)` (src/mp3frame/frames.py lines
384-402): consume the low `bits` bits of `val`, most significant first
(at the iteration where the loop variable equals `n + 1`, the consumed
bit is `(val & (1 << n)) >> n`, i.e. `(val >>> n) &&& 1`). -/
def crc16_bits (val bits start : Nat) : Nat :=
  match bits with
  | 0 => start
  | n + 1 => crc16_bits val n (crcStep start ((val >>> n) &&& 1))

/-- Entry `x` of `_crc_table` (src/mp3frame/frames.py line 404):
`crc16_bits(x, 8, 0)`. -/
def crc_table (x : Nat) : Nat := crc16_bits x 8 0

/-- Embeds the byte-table driven `crc16(data, start)`
(src/mp3frame/frames.py lines 405-414). -/
def crc16 (data : List Nat) (start : Nat) : Nat :=
  data.foldl (fun c ch => ((c &&& 0xff) <<< 8) ^^^ crc_table ((c >>> 8) ^^^ ch)) start

/-! ## Tag identification (src/mp3frame/mp3ext.py) -/

/-- Embeds `_startswith(arr, prefix, arr_offset)` (src/mp3frame/mp3ext.py
lines 59-65).  Out-of-range reads model as 0; every caller in the source
guards the length first, so in-range behaviour coincides. -/
def pyStartswith (arr pre : List Nat) (off : Nat) : Bool :=
  (List.range pre.length).all (fun i => arr.getD (i + off) 0 = pre.getD i 0)

/-- Byte encoding of the magic string constants of src/mp3frame/mp3ext.py
lines 68-73 (`_enc` applied to ID3, TAG, APETAGEX, LYRICSBEGIN,
LYRICSEND, LYRICS200). -/
def magicID3 : List Nat := [73, 68, 51]

/-- Byte encoding of the id3v1 magic TAG. -/
def magicTAG : List Nat := [84, 65, 71]

/-- Byte encoding of the APEv2 magic APETAGEX. -/
def magicAPETAGEX : List Nat := [65, 80, 69, 84, 65, 71, 69, 88]

/-- Byte encoding of the Lyrics3 magic LYRICSBEGIN. -/
def magicLYRICSBEGIN : List Nat := [76, 89, 82, 73, 67, 83, 66, 69, 71, 73, 78]

/-- Byte encoding of the Lyrics3v1 magic LYRICSEND. -/
def magicLYRICSEND : List Nat := [76, 89, 82, 73, 67, 83, 69, 78, 68]

/-- Byte encoding of the Lyrics3v2 magic LYRICS200. -/
def magicLYRICS200 : List Nat := [76, 89, 82, 73, 67, 83, 50, 48, 48]

/-- Embeds `id3v2_size` (src/mp3frame/mp3ext.py lines 76-95).
Returns the tag size, 0 for "not a tag", or -1 for "need more data". -/
def id3v2_size (data : List Nat) : Int :=
  if 3 ≤ data.length ∧ ¬ pyStartswith data magicID3 0 then 0
  else if data.length < 10 then -1
  else if data.getD 3 0 = 0xff ∨ data.getD 4 0 = 0xff then 0
  else if (List.range 4).any (fun i => 0x80 ≤ data.getD (6 + i) 0) then 0
  else
    let flags := data.getD 5 0
    let l := 10 + ((data.getD 6 0) <<< 21) + ((data.getD 7 0) <<< 14)
               + ((data.getD 8 0) <<< 7) + data.getD 9 0
    ((if flags &&& 0x40 ≠ 0 then l + 10 else l : Nat) : Int)

/-- Embeds `id3v1_size(data, eof, offset)` (src/mp3frame/mp3ext.py lines
97-107): requires exactly 128 bytes after `offset` at EOF. -/
def id3v1_size (data : List Nat) (eof : Bool) (off : Nat) : Int :=
  let taglen : Int := (data.length : Int) - (off : Int)
  if 3 ≤ taglen ∧ ¬ pyStartswith data magicTAG off then 0
  else if taglen = 128 ∧ eof then 128
  else if taglen < 128 ∧ ¬ eof then -1
  else 0

/-- Embeds `apev2_size` (src/mp3frame/mp3ext.py lines 109-117).  The size
field is the little-endian u32 at bytes 12..16 (`struct.unpack('<I', ...)`;
note the source forgets to import struct, so reaching that line raises a
NameError in Python — the arithmetic here follows the spec's words,
section 4.6, which this code clearly intends). -/
def apev2_size (data : List Nat) : Int :=
  if 8 ≤ data.length ∧ ¬ pyStartswith data magicAPETAGEX 0 then 0
  else if data.length < 16 then -1
  else (32 + (data.getD 12 0 + ((data.getD 13 0) <<< 8) + ((data.getD 14 0) <<< 16)
          + ((data.getD 15 0) <<< 24)) : Nat)

/-- Result of `lyrics_field_info`: the Python function returns `None`
(invalid), `(name, size)` for a named field, or `(None, size)` for the
tag-length end marker. -/
inductive LyrField where
  | invalid : LyrField
  | endMark (size : Nat) : LyrField
  | field (size : Nat) : LyrField
deriving DecidableEq

/-- Decimal number parse used by `lyrics_field_info` (`_val`,
src/mp3frame/mp3ext.py lines 129-135): `none` when any byte is not an
ASCII digit. -/
def lyrDigits (data : List Nat) (pos len : Nat) : Option Nat :=
  (List.range len).foldl
    (fun acc i => match acc with
      | none => none
      | some r =>
        let ch := data.getD (pos + i) 0
        if ch < 48 ∨ 57 < ch then none else some (r * 10 + (ch - 48)))
    (some 0)

/-- Embeds `lyrics_field_info` (src/mp3frame/mp3ext.py lines 119-148);
`_ucase` tests for an uppercase ASCII letter. -/
def lyrics_field_info (data : List Nat) (off : Nat) : LyrField :=
  let ucase := fun p => 64 < data.getD p 0 ∧ data.getD p 0 ≤ 64 + 26
  if ucase off ∧ ucase (off + 1) ∧ ucase (off + 2) then
    match lyrDigits data (off + 3) 5 with
    | none => .invalid
    | some v => .field v
  else
    match lyrDigits data off 6 with
    | none => .invalid
    | some v => .endMark v

/-- The field-scanning loop of `lyrics3v2_size` (src/mp3frame/mp3ext.py
lines 154-171), as structural recursion on fuel so that it reduces in the
kernel: `none` models the `return 0` exits inside the loop, and
`some pos` the position at which the loop ends (by its condition or by
the break in the end-marker branch). -/
def lyr2LoopF : Nat → List Nat → Nat → Option Nat
  | 0, _, pos => some pos
  | fuel + 1, data, pos =>
    if pos + 8 < data.length then
      if 0x80000 ≤ pos then none
      else
        match lyrics_field_info data pos with
        | .invalid => none
        | .endMark size => if pos ≠ size then none else some (pos + 6)
        | .field size => lyr2LoopF fuel data (pos + size + 8)
    else some pos

/-- The `lyrics3v2_size` loop with enough fuel: every iteration advances
`pos` by at least 8 and the loop runs only while `pos + 8 < len(data)`,
so `data.length + 1` iterations always suffice and the fuel-exhausted
branch of `lyr2LoopF` is unreachable. -/
def lyr2Loop (data : List Nat) (pos : Nat) : Option Nat :=
  lyr2LoopF (data.length + 1) data pos

/-- Embeds `lyrics3v2_size` (src/mp3frame/mp3ext.py lines 150-178). -/
def lyrics3v2_size (data : List Nat) : Int :=
  if 11 ≤ data.length ∧ ¬ pyStartswith data magicLYRICSBEGIN 0 then 0
  else
    match lyr2Loop data 11 with
    | none => 0
    | some pos =>
      if data.length < pos + 9 then -1
      else if pyStartswith data magicLYRICS200 pos then (pos : Int) + 9
      else 0

/-- Embeds `lyrics3v1_size` (src/mp3frame/mp3ext.py lines 180-204). -/
def lyrics3v1_size (data : List Nat) (eof : Bool) : Int :=
  let taglen := data.length
  if 11 ≤ taglen ∧ ¬ pyStartswith data magicLYRICSBEGIN 0 then 0
  else if 5120 + 128 < taglen then 0
  else if ¬ eof then -1
  else if taglen < 20 then 0
  else
    let taglen2 := if 128 + 20 ≤ taglen ∧ id3v1_size data eof (taglen - 128) = 128
                   then taglen - 128 else taglen
    if pyStartswith data magicLYRICSEND (taglen2 - 9) then (taglen2 : Int) else 0

/-- Tag kinds returned by `identify_tag`. -/
inductive TagKind where
  | id3v1 | id3v2 | apev2 | lyrics3v1 | lyrics3v2
deriving DecidableEq

/-- Embeds `identify_tag` (src/mp3frame/mp3ext.py lines 27-54): detectors
are tried in order id3v2, id3v1, apev2, lyrics3v2, lyrics3v1; a positive
size wins; otherwise at EOF the result is `(none, 0)`, and before EOF the
Python expression `v2 or v1 or ape or lyr2 or lyr1` yields the first
nonzero (-1) value, else 0. -/
def identify_tag (data : List Nat) (eof : Bool) : Option TagKind × Int :=
  let v2 := id3v2_size data
  if 0 < v2 then (some .id3v2, v2)
  else
    let v1 := id3v1_size data eof 0
    if 0 < v1 then (some .id3v1, v1)
    else
      let ape := apev2_size data
      if 0 < ape then (some .apev2, ape)
      else
        let lyr2 := lyrics3v2_size data
        if 0 < lyr2 then (some .lyrics3v2, lyr2)
        else
          let lyr1 := lyrics3v1_size data eof
          if 0 < lyr1 then (some .lyrics3v1, lyr1)
          else if eof then (none, 0)
          else (none,
            if v2 ≠ 0 then v2 else if v1 ≠ 0 then v1 else if ape ≠ 0 then ape
            else if lyr2 ≠ 0 then lyr2 else lyr1)

/-! ## Sync state (src/mp3frame/sync.py) -/

/-- Combined state of `BaseSync` (src/mp3frame/sync.py lines 28-54) and
its subclass `PhysicalFrameSync` (lines 171-187).  The `BaseSync`
operations read and write only the first six fields; `synced`,
`frames_returned` and `base_framesize` belong to `PhysicalFrameSync`. -/
structure Sync where
  data : List Nat
  bytes_returned : Nat
  read_eof : Bool
  sync_skip : Nat
  sync_header : Nat
  sync_mask : Nat
  synced : Bool
  frames_returned : Nat
  base_framesize : Int
deriving DecidableEq

/-- Initial state built by `PhysicalFrameSync.__init__` (which runs
`BaseSync.__init__` and then sets its own fields). -/
def initSync : Sync :=
  { data := [], bytes_returned := 0, read_eof := false, sync_skip := 0
    sync_header := 0xffe00000, sync_mask := 0xffe00000
    synced := true, frames_returned := 0, base_framesize := -1 }

/-- State after feeding the byte list `b` and then EOF into a fresh
`PhysicalFrameSync` (any chunking of `fromfile` calls appends the same
bytes to the empty buffer, so only the concatenation matters). -/
def initFeed (b : List Nat) : Sync :=
  { initSync with data := b, read_eof := true }

/-- Python `x or y` for an optional integer argument defaulting to a
state field: `header or self.sync_header` uses the default both for
`None` and for a zero argument (no caller passes zero). -/
def pyOrDefault (o : Option Nat) (dflt : Nat) : Nat :=
  match o with
  | none => dflt
  | some v => if v = 0 then dflt else v

/-- The 32-bit big-endian word test of `_is_sync` on a raw buffer
(src/mp3frame/sync.py lines 73-79), with the header and mask already
resolved. -/
def isSyncAt (d : List Nat) (pos hdr msk : Nat) : Bool :=
  let head := ((d.getD pos 0) <<< 24) ||| ((d.getD (pos + 1) 0) <<< 16)
            ||| ((d.getD (pos + 2) 0) <<< 8) ||| d.getD (pos + 3) 0
  (head &&& msk) = hdr

/-- Embeds the `while 1` loop of `resync` (src/mp3frame/sync.py lines
93-113) as a recursion on the scan offset, threading `sync_skip`.
`dsub.index(255)` is the first 0xFF at or after `offset` (the
`ValueError` branch is the `none` case of `findIdx?`); `header` and
`mask` are constant through the loop, so they are resolved once by the
caller.  Returns the Python return value and the final `sync_skip`. -/
def resyncLoopF : Nat → List Nat → Nat → Nat → Nat → Nat → Int × Nat
  | 0, d, _, _, _, _ => (-1, d.length)
  | fuel + 1, d, hdr, msk, offset, ss =>
    match (d.drop offset).findIdx? (fun b => b = 255) with
    | none => (-1, d.length)
    | some i =>
      let pos := i + offset
      if d.length < pos + 4 then (-1, ss + pos)
      else if isSyncAt d pos hdr msk then (((ss + pos : Nat) : Int), ss + pos)
      else resyncLoopF fuel d hdr msk (ss + pos + 1) (ss + pos + 1)

/-- The `resync` loop with enough fuel: every iteration moves the scan
offset forward by at least 1 (the next offset is `ss + pos + 1` with
`pos ≥ offset`), and once the offset passes `d.length` the 0xFF search
fails and the loop returns, so `d.length + 1 - offset` iterations always
suffice and the fuel-exhausted branch of `resyncLoopF` is unreachable. -/
def resyncLoop (d : List Nat) (hdr msk offset ss : Nat) : Int × Nat :=
  resyncLoopF (d.length + 1 - offset) d hdr msk offset ss

/-- Embeds `resync(offset, header, mask)` (src/mp3frame/sync.py lines
81-113): the scan starts at `max(offset, self.sync_skip)`; only
`sync_skip` is updated in the state. -/
def resyncFn (s : Sync) (offset : Nat) (hdr msk : Option Nat) : Int × Sync :=
  let r := resyncLoop s.data (pyOrDefault hdr s.sync_header)
    (pyOrDefault msk s.sync_mask) (max offset s.sync_skip) s.sync_skip
  (r.1, { s with sync_skip := r.2 })

/-- Result of `identify` (src/mp3frame/sync.py lines 115-155): `sync`,
`garbage(size)` or `tag(size, type)`; `none` means "need more data". -/
inductive IdentRes where
  | sync : IdentRes
  | garbage (n : Nat) : IdentRes
  | tagged (kind : TagKind) (n : Nat) : IdentRes
deriving DecidableEq

/-- Embeds `identify` (src/mp3frame/sync.py lines 115-155).  The state
can change only through the `resync()` call (its `sync_skip` update).
In the tag branch the kind is present whenever the size is positive;
`getD .id3v1` is an unreachable placeholder for that impossible case. -/
def identifyFn (s : Sync) : Sync × Option IdentRes :=
  let d := s.data
  if d.length < 4 then
    if s.read_eof ∧ d ≠ [] then (s, some (.garbage d.length)) else (s, none)
  else if isSyncAt d 0 s.sync_header s.sync_mask then (s, some .sync)
  else
    let t := identify_tag d s.read_eof
    if 0 < t.2 then (s, some (.tagged (t.1.getD .id3v1) t.2.toNat))
    else if t.2 = -1 then (s, none)
    else
      let r := resyncFn s 0 none none
      if 0 < r.1 then (r.2, some (.garbage r.1.toNat))
      else if 0 < r.2.sync_skip then (r.2, some (.garbage r.2.sync_skip))
      else (r.2, none)

/-- Embeds `advance(bytes)` (src/mp3frame/sync.py lines 157-167): `none`
models the `MP3UsageError` for a count exceeding the buffer (the Python
negative-count check is vacuous for a natural number). -/
def advanceFn (s : Sync) (n : Nat) : Option Sync :=
  if s.data.length < n then none
  else some { s with bytes_returned := s.bytes_returned + n
                     data := s.data.drop n
                     sync_skip := s.sync_skip - n }

/-! ## MP3Frame and PhysicalFrameSync (src/mp3frame/frames.py lines 34-57,
src/mp3frame/sync.py lines 171-353) -/

/-- Physical frame record (the standard fields of `MP3Frame`,
src/mp3frame/frames.py lines 34-47).  `crc16` holds the 16-bit stream
value when `protection_bit = 0`. -/
structure MP3Frame where
  header : FrameHeader
  side_info : Option SideInfo
  raw_body : List Nat
  crc16 : Option Nat
  resynced : Bool
  frame_number : Nat
  byte_position : Nat
deriving DecidableEq

/-- Embeds `MP3Frame.__len__` (src/mp3frame/frames.py lines 49-57):
4 header bytes, plus 2 CRC bytes when protected, plus the side-info
bytes for layer 3, plus the body. -/
def frameLen (fr : MP3Frame) : Nat :=
  4 + (if fr.header.protection_bit = 0 then 2 else 0)
    + (if fr.header.layer_index = 1 then
         (match fr.side_info with | some si => si.raw_data.length | none => 0)
       else 0)
    + fr.raw_body.length

/-- CRC stream bytes of a frame: the stored 16-bit value split back into
its two big-endian bytes, or nothing when the frame is unprotected. -/
def crcBytesOf : Option Nat → List Nat
  | some c => [c >>> 8, c &&& 0xff]
  | none => []

/-- Side-info stream bytes of a frame (empty for layers 1 and 2). -/
def siBytesOf : Option SideInfo → List Nat
  | some si => si.raw_data
  | none => []

/-- Raw stream bytes held by a frame object, in stream order: header
raw_data, the two stored CRC bytes when present, the side-info bytes,
then `raw_body` (the layout `MP3Frame.encode` reproduces,
src/mp3frame/frames.py lines 59-101, but with the stored CRC value
rather than a recomputed one). -/
def frameBytes (fr : MP3Frame) : List Nat :=
  fr.header.raw_data ++ crcBytesOf fr.crc16 ++ siBytesOf fr.side_info ++ fr.raw_body

/-- Result of `_create_frame` (src/mp3frame/sync.py lines 244-353):
a frame, the string `'moredata'`, the string `'resync'` (called `lost`
here), or `crash` for a Python-level exception escaping the method
(a failed `assert`, or an attribute error). -/
inductive CreateRes where
  | made (fr : MP3Frame) : CreateRes
  | moredata : CreateRes
  | lost : CreateRes
  | crash : CreateRes
deriving DecidableEq

/-- Frame construction and `advance(sz)` at the end of `_create_frame`
(src/mp3frame/sync.py lines 333-353); `sz ≤ data.length` was checked by
the caller, so the advance cannot fail. -/
def buildFrame (s : Sync) (head : FrameHeader) (headsz sidesz sz : Nat)
    (siObj : Option SideInfo) : Sync × CreateRes :=
  let d := s.data
  let fr : MP3Frame :=
    { header := head
      side_info := siObj
      raw_body := (d.drop (headsz + sidesz)).take (sz - (headsz + sidesz))
      crc16 := if head.protection_bit = 0
               then some (((d.getD 4 0) <<< 8) ||| d.getD 5 0) else none
      resynced := ! s.synced
      frame_number := s.frames_returned
      byte_position := s.bytes_returned }
  ({ s with data := d.drop sz
            bytes_returned := s.bytes_returned + sz
            sync_skip := s.sync_skip - sz
            frames_returned := s.frames_returned + 1
            synced := true }, .made fr)

/-- Common tail of `_create_frame` once `sz` is final (src/mp3frame/sync.py
lines 329-353): `assert sz > 0` (failure = crash), the buffered-length
check, then the frame build. -/
def finishFrame (s : Sync) (head : FrameHeader) (headsz sidesz : Nat)
    (siObj : Option SideInfo) (szI : Int) : Sync × CreateRes :=
  if szI ≤ 0 then (s, .crash)
  else if (s.data.length : Int) < szI then (s, .moredata)
  else buildFrame s head headsz sidesz szI.toNat siObj

/-- Size adjustment entered after the free-format syncword search
(src/mp3frame/sync.py lines 320-327): `assert sz >= offset` (failure =
crash), then cache `base_framesize` when autodetecting.  `head.padding`
and `head.sample_size` exist on no header class in the source; following
the spec (section 4.8, "sz = base + (padded ? sample_size : 0)") they are
modelled as the `padded` field and `mp3bits.sample_size(layer_index)`. -/
def freeformCont (s : Sync) (head : FrameHeader) (headsz sidesz : Nat)
    (siObj : Option SideInfo) (offset : Nat) (szI : Int) : Sync × CreateRes :=
  if szI < (offset : Int) then (s, .crash)
  else
    let s2 := if s.base_framesize < 0 then
        { s with base_framesize :=
            szI - (if head.padded ≠ 0 then (((sample_size head.layer_index).getD 0 : Nat) : Int)
                   else 0) }
      else s
    finishFrame s2 head headsz sidesz siObj szI

/-- The free-format search branch of `_create_frame` (src/mp3frame/sync.py
lines 288-319): scan for a syncword agreeing on the first 22 header bits
(mask 0xfffffc00), starting past the side info and `part2_3_end`;
on failure either give up (`lost`), wait for data, or at EOF take the
rest of the buffer minus a trailing id3v1 tag.  `ffOffset` is the resync
start offset: past the side info and `part2_3_end`. -/
def ffOffset (headsz sidesz : Nat) (siObj : Option SideInfo) : Nat :=
  headsz + sidesz +
    (match siObj with | some si => (max 0 (si_part2_3_end si)).toNat | none => 0)

def searchFreeform (s : Sync) (head : FrameHeader) (headsz sidesz : Nat)
    (siObj : Option SideInfo) : Sync × CreateRes :=
  let d := s.data
  let offset := ffOffset headsz sidesz siObj
  let shdr := (0xff <<< 24) ||| ((d.getD 1 0) <<< 16) ||| ((d.getD 2 0) <<< 8)
  let r := resyncFn s offset (some shdr) (some 0xfffffc00)
  let s1 := r.2
  if r.1 = -1 then
    if 8192 ≤ d.length then ({ s1 with sync_skip := 0 }, .lost)
    else if ¬ s1.read_eof then (s1, .moredata)
    else
      let tagsz := id3v1_size (d.drop (d.length - 128)) true 0
      let szI : Int := if 128 < d.length ∧ 0 < tagsz
                       then (d.length : Int) - tagsz else (d.length : Int)
      freeformCont s1 head headsz sidesz siObj offset szI
  else freeformCont s1 head headsz sidesz siObj offset r.1

/-- Embeds `_create_frame` (src/mp3frame/sync.py lines 244-353).  The
`try` around the `frame_size` lookup maps a reserved-value error to the
`'resync'` result (`lost`); spec section 7 states that DataError and
ReservedError inside `_create_frame` map to a resync outcome.  The Python
truthiness tests `sz or (headsz + sidesz)` and `if not sz` treat both
`None` and 0 as false. -/
def createFrame (s : Sync) : Sync × CreateRes :=
  let d := s.data
  match FrameHeader.ofBytes d with
  | none => (s, .crash)
  | some head =>
    let headsz := if head.protection_bit = 0 then 6 else 4
    match headerFrameSize head with
    | none => (s, .lost)
    | some szN =>
      let sidesz := if head.layer_index = 1
                    then side_info_size head.version_index head.channel_mode else 0
      if d.length < (match szN with
                     | some sz => if sz ≠ 0 then sz else headsz + sidesz
                     | none => headsz + sidesz) then (s, .moredata)
      else
        let siObj : Option SideInfo :=
          if sidesz ≠ 0 then
            some { version_index := head.version_index
                   channel_mode := head.channel_mode
                   raw_data := (d.drop headsz).take sidesz }
          else none
        let padAdd : Int := if head.padded ≠ 0
          then (((sample_size head.layer_index).getD 0 : Nat) : Int) else 0
        let szA : Option Int :=
          match szN with
          | some sz =>
            if sz ≠ 0 then some (sz : Int)
            else if s.base_framesize ≠ 0 then some (s.base_framesize + padAdd) else none
          | none =>
            if s.base_framesize ≠ 0 then some (s.base_framesize + padAdd) else none
        match szA with
        | some szI =>
          if szI ≠ 0 then finishFrame s head headsz sidesz siObj szI
          else searchFreeform s head headsz sidesz siObj
        | none => searchFreeform s head headsz sidesz siObj

/-- Items produced by `PhysicalFrameSync.readitem`. -/
inductive RItem where
  | frameIt (fr : MP3Frame) : RItem
  | tagIt (kind : TagKind) (bytes : List Nat) : RItem
  | garbageIt (bytes : List Nat) : RItem
deriving DecidableEq

/-- Raw bytes carried by an emitted item: a tag or garbage item carries
its byte array (`CommentTag.raw_data` is the drained slice); a frame item
carries its stream bytes `frameBytes`. -/
def itemBytes : RItem → List Nat
  | .frameIt fr => frameBytes fr
  | .tagIt _ b => b
  | .garbageIt b => b

/-- Result of one `readitem` call: an item, `none`/"need more data", or a
Python-level exception (`crash`). -/
inductive ReadRes where
  | item (it : RItem) : ReadRes
  | needData : ReadRes
  | crash : ReadRes
deriving DecidableEq

/-- Embeds `PhysicalFrameSync.readitem` (src/mp3frame/sync.py lines
189-242).  Note the quirks kept from the source: fewer than 4 buffered
bytes return "need more data" even at EOF; in the tag/garbage branch
`synced` is assigned before the size check, so a "need more data" return
can still change it; all `advance` calls have their bound checked just
before, so they are inlined. -/
def readitemFn (s : Sync) : Sync × ReadRes :=
  if s.data.length < 4 then (s, .needData)
  else
    let i := identifyFn s
    let s1 := i.1
    match i.2 with
    | none => (s1, .needData)
    | some (.garbage n) =>
      let s2 := { s1 with synced := false }
      if s2.data.length < n then (s2, .needData)
      else ({ s2 with data := s2.data.drop n
                      bytes_returned := s2.bytes_returned + n
                      sync_skip := s2.sync_skip - n },
            .item (.garbageIt (s2.data.take n)))
    | some (.tagged k n) =>
      let s2 := { s1 with synced := true }
      if s2.data.length < n then (s2, .needData)
      else ({ s2 with data := s2.data.drop n
                      bytes_returned := s2.bytes_returned + n
                      sync_skip := s2.sync_skip - n },
            .item (.tagIt k (s2.data.take n)))
    | some .sync =>
      let c := createFrame s1
      let s2 := c.1
      match c.2 with
      | .made fr => (s2, .item (.frameIt fr))
      | .crash => (s2, .crash)
      | .moredata =>
        if ¬ s2.read_eof then (s2, .needData)
        else
          ({ s2 with data := []
                     bytes_returned := s2.bytes_returned + s2.data.length
                     sync_skip := s2.sync_skip - s2.data.length
                     synced := false },
           .item (.garbageIt s2.data))
      | .lost =>
        ({ s2 with data := s2.data.drop 1
                   bytes_returned := s2.bytes_returned + 1
                   sync_skip := s2.sync_skip - 1
                   synced := false },
         .item (.garbageIt (s2.data.take 1)))

/-- Repeatedly call `readitem`, collecting emitted items, until the fuel
runs out, "need more data" is returned, or a crash occurs.  The boolean
records whether every emitted item's byte count equals the number of
buffer bytes its call consumed (always true for tag and garbage items;
a frame can violate it only through a stale free-format
`base_framesize`). -/
def drainLoop (fuel : Nat) (s : Sync) (acc : List RItem) (ok : Bool) :
    List RItem × Sync × Bool :=
  match fuel with
  | 0 => (acc.reverse, s, ok)
  | fuel + 1 =>
    let r := readitemFn s
    match r.2 with
    | .item it =>
      drainLoop fuel r.1 (it :: acc)
        (ok && ((itemBytes it).length = r.1.bytes_returned - s.bytes_returned))
    | .needData => (acc.reverse, r.1, ok)
    | .crash => (acc.reverse, r.1, ok)

/-- Feed `b` and EOF into a fresh `PhysicalFrameSync`, then call
`readitem` up to `fuel` times. -/
def drain (fuel : Nat) (b : List Nat) : List RItem × Sync × Bool :=
  drainLoop fuel (initFeed b) [] true

/-! ## LogicalFrameAssembler (src/mp3frame/sync.py lines 427-490) -/

/-- Bit-reservoir state: `reservoir` holds trailing main-data bytes of
prior layer-3 frames, `last_end` the index where the previously
assembled logical frame ended, `ancillary_skipped` the last skip count
(a slot written on every `frame_in` call, initialised to 0 here). -/
structure Assembler where
  reservoir : List Nat
  last_end : Int
  ancillary_skipped : Int
deriving DecidableEq

/-- Initial assembler state (`LogicalFrameAssembler.__init__`). -/
def initAssembler : Assembler :=
  { reservoir := [], last_end := 0, ancillary_skipped := 0 }

/-- Embeds `LogicalFrameAssembler.frame_in` (src/mp3frame/sync.py lines
434-490).  The outer `none` models the `AttributeError` raised when a
layer-3 frame arrives without side info (never produced by
`_create_frame`).  The inner option is the returned main-data: `None`
when the frame references unavailable data.  Python slices with computed
bounds are expressed with `drop`/`take`: for `0 < begin ≤ len(res)` and
`end < 0`, `res[-begin:end]` is `drop (len res - begin)` then
`take (len res + end - (len res - begin))`; `res[-begin:]` is
`drop (len res - begin)`; `raw_body[:end]` for `end ≥ 0` is
`take end.toNat`; `res[-keep:]` for `keep ≥ 1` is
`drop (len res - keep)`. -/
def frame_in (a : Assembler) (fr : MP3Frame) :
    Option (Assembler × Option (List Nat)) :=
  let raw_body := fr.raw_body
  let unused_reservoir : Int := (a.reservoir.length : Int) - a.last_end
  if fr.header.layer_index ≠ 1 then
    some (if unused_reservoir ≠ 0 then
            { reservoir := [], last_end := 0, ancillary_skipped := unused_reservoir }
          else { a with ancillary_skipped := unused_reservoir },
          some raw_body)
  else
    match fr.side_info with
    | none => none
    | some si =>
      let begin_ := si_main_data_begin si
      let main_len := si_part2_3_bytes si
      let e : Int := (main_len : Int) - (begin_ : Int)
      let data : Option (List Nat) :=
        if a.reservoir.length < begin_ then none
        else if (raw_body.length : Int) < e then none
        else if e < 0 then
          some ((a.reservoir.drop (a.reservoir.length - begin_)).take
            (((a.reservoir.length : Int) + e).toNat - (a.reservoir.length - begin_)))
        else if 0 < begin_ then
          some (a.reservoir.drop (a.reservoir.length - begin_) ++ raw_body.take e.toNat)
        else some (raw_body.take e.toNat)
      let reservoir2 :=
        if 511 ≤ raw_body.length ∨ a.reservoir = [] then raw_body
        else if 4096 < a.reservoir.length + raw_body.length then
          let keep := max 1 (511 - raw_body.length)
          (a.reservoir.drop (a.reservoir.length - keep)) ++ raw_body
        else a.reservoir ++ raw_body
      let last_end2 : Int :=
        match data with
        | none => a.last_end - raw_body.length
        | some dt => (raw_body.length : Int) - ((dt.length : Int) - e)
      some ({ reservoir := reservoir2, last_end := last_end2
              ancillary_skipped := unused_reservoir - begin_ }, data)

/-- Projection of a `readitem` result onto its frame, when it is one. -/
def itemFrame : ReadRes → Option MP3Frame
  | .item (.frameIt fr) => some fr
  | _ => none

/-- States reachable from a fresh sync object, paired with the total
number of bytes ever appended to the buffer.  `feed` models `fromfile`
(src/mp3frame/sync.py lines 59-71): it requires that EOF has not been
seen (otherwise the call raises), appends the bytes read, and sets
`read_eof` if the read hit end of file; the other constructors run
`resync`, `identify` and a non-failing `advance`. -/
inductive Reach : Sync → Nat → Prop where
  | init : Reach initSync 0
  | feed (s : Sync) (n : Nat) (chunk : List Nat) (eof : Bool) :
      Reach s n → s.read_eof = false →
      Reach { s with data := s.data ++ chunk, read_eof := eof } (n + chunk.length)
  | resyncStep (s : Sync) (n off : Nat) (hdr msk : Option Nat) :
      Reach s n → Reach (resyncFn s off hdr msk).2 n
  | identifyStep (s : Sync) (n : Nat) :
      Reach s n → Reach (identifyFn s).1 n
  | advanceStep (s : Sync) (n k : Nat) (s2 : Sync) :
      Reach s n → advanceFn s k = some s2 → Reach s2 n

/-! ## Theorems -/

set_option maxRecDepth 8000 in
/-- C1: for the input `[0xFF,0xFB,0x90,0x00]` plus 417 zero bytes at EOF,
the first `readitem` produces a Frame of total encoded length 417 whose
raw_body has 381 bytes, with no CRC, decoding to bitrate 128000 bps and
samplerate 44100 Hz. -/
theorem C1_first_item_is_417_byte_frame :
    (itemFrame (readitemFn (initFeed ([0xff, 0xfb, 0x90, 0x00] ++ List.replicate 417 0))).2).map
        (fun fr => (frameLen fr, fr.raw_body.length, fr.crc16,
          headerBitrate fr.header,
          samplerate fr.header.version_index fr.header.samplerate_index))
      = some (417, 381, none, some (some 128000), some 44100) := by
  decide

/-- C2 (code bug): the Layer-1 branch of `frame_size` forgets to multiply
the slot count by the 4-byte slot size.  At version_index=3 (MPEG1),
layer_index=3 (Layer 1), bitrate_index=1 (32 kbps), samplerate_index=0
(44100 Hz), no padding, the code returns 8 while the specified formula
`((12 * 32 * 1000) / 44100) * 4` gives 32. -/
theorem C2_layer1_frame_size_bug :
    frame_size 3 3 1 0 0 = some (some 8)
    ∧ frame_size_spec 3 3 1 0 0 = some (some 32)
    ∧ frame_size 2 1 1 0 0 = frame_size_spec 2 1 1 0 0 := by
  decide

/-- C4 (code bug): `resync` accumulates absolute candidate positions into
`sync_skip` (`self.sync_skip += pos`), so after a failed 0xFF candidate it
no longer returns the position of the found syncword.  On the buffer
`[0xFF,0x00,0xFF,0xE0,0x00,0x00]` the smallest match position is 2 (the
candidate at 0 fails the mask test), but `resync(0)` returns 3. -/
theorem C4_resync_returns_wrong_position :
    (resyncFn { initSync with data := [0xff, 0x00, 0xff, 0xe0, 0x00, 0x00] } 0 none none).1 = 3
    ∧ isSyncAt [0xff, 0x00, 0xff, 0xe0, 0x00, 0x00] 2 0xffe00000 0xffe00000 = true
    ∧ (∀ q < 2, isSyncAt [0xff, 0x00, 0xff, 0xe0, 0x00, 0x00] q 0xffe00000 0xffe00000 = false)
    ∧ (3 : Int) ≠ 2 := by
  decide

/-- C5 (code bug): because of the same `sync_skip += pos` accumulation, a
single `resync` call on the reachable 10-byte buffer
`[0xFF,0,0,0,0xFF,0,0,0,0xFF,0]` leaves `sync_skip = 14 > 10`, violating
the documented invariant `sync_skip ≤ len(data)`. -/
theorem C5_sync_skip_exceeds_buffer :
    Reach (resyncFn { initSync with data := [0xff, 0, 0, 0, 0xff, 0, 0, 0, 0xff, 0] }
        0 none none).2 10
    ∧ (resyncFn { initSync with data := [0xff, 0, 0, 0, 0xff, 0, 0, 0, 0xff, 0] }
        0 none none).2.sync_skip = 14
    ∧ (resyncFn { initSync with data := [0xff, 0, 0, 0, 0xff, 0, 0, 0, 0xff, 0] }
        0 none none).2.data.length = 10 := by
  refine ⟨?_, by decide, by decide⟩
  have h0 := Reach.feed initSync 0 [0xff, 0, 0, 0, 0xff, 0, 0, 0, 0xff, 0] false
    Reach.init rfl
  exact Reach.resyncStep _ 10 0 none none h0

/-- C6 counterexample: the claim says a 4-byte input whose top 11 bits are
not all 1 makes decode fail with DataError; but `FrameHeader._decode`
performs no sync check at all, so `[0,0,0,0]` decodes successfully. -/
theorem C6_counterexample_decode_accepts_bad_sync :
    FrameHeader.ofBytes [0, 0, 0, 0]
      = some { version_index := 0, layer_index := 0, protection_bit := 0
               bitrate_index := 0, samplerate_index := 0, padded := 0, priv := 0
               channel_mode := 0, mode_extension := 0, copy_control := 0
               original := 0, emphasis := 0, raw_data := [0, 0, 0, 0] } := by
  decide

/-- C6 amended: `FrameHeader` decode performs no validation at all — for
every input of at least 4 bytes (whether or not the top 11 bits are set)
it succeeds and populates every bit field from the second, third and
fourth bytes; only shorter inputs are rejected.  The sync check the
original claim describes lives elsewhere (`BaseSync.identify`, and the
legacy `Header._validate` of src/mp3frame.py, which moreover also
rejects reserved field combinations). -/
theorem C6_decode_populates_without_validation (data : List Nat)
    (h : 4 ≤ data.length) :
    FrameHeader.ofBytes data = some
      { version_index := data.getD 1 0 / 8 % 4
        layer_index := data.getD 1 0 / 2 % 4
        protection_bit := data.getD 1 0 % 2
        bitrate_index := data.getD 2 0 / 16
        samplerate_index := data.getD 2 0 / 4 % 4
        padded := data.getD 2 0 / 2 % 2
        priv := data.getD 2 0 % 2
        channel_mode := data.getD 3 0 / 64
        mode_extension := data.getD 3 0 / 16 % 4
        copy_control := data.getD 3 0 / 8 % 2
        original := data.getD 3 0 / 4 % 2
        emphasis := data.getD 3 0 % 4
        raw_data := data.take 4 } := by
  rw [FrameHeader.ofBytes, if_neg (by omega)]
  have hdiv : ∀ x k : Nat, x >>> k = x / 2 ^ k := Nat.shiftRight_eq_div_pow
  have hm4 : ∀ x : Nat, x &&& 3 = x % 4 := fun x => Nat.and_pow_two_sub_one_eq_mod x 2
  have hm2 : ∀ x : Nat, x &&& 1 = x % 2 := fun x => Nat.and_pow_two_sub_one_eq_mod x 1
  simp only [hdiv, hm4, hm2]
  norm_num

/-- Witness for C6 amended at the concrete 4-byte input
`[0x12,0x34,0x56,0x78]` (whose top 11 bits are not all 1). -/
theorem C6_decode_populates_without_validation_witness :
    4 ≤ ([0x12, 0x34, 0x56, 0x78] : List Nat).length ∧
    FrameHeader.ofBytes [0x12, 0x34, 0x56, 0x78] = some
      { version_index := 2, layer_index := 2, protection_bit := 0
        bitrate_index := 5, samplerate_index := 1, padded := 1, priv := 0
        channel_mode := 1, mode_extension := 3, copy_control := 1
        original := 0, emphasis := 0, raw_data := [0x12, 0x34, 0x56, 0x78] } :=
  ⟨by decide, C6_decode_populates_without_validation [0x12, 0x34, 0x56, 0x78] (by decide)⟩

set_option maxRecDepth 4000 in
/-- Rebuilding the second header byte from its decoded fields recovers the
byte when its top three bits are set (the encode body for `raw_data[1]`
composed with the `_decode` extractions). -/
theorem hdrByte1_rebuild : ∀ x < 256, x &&& 0xe0 = 0xe0 →
    0xe0 ||| (((x >>> 3) &&& 3) <<< 3) ||| (((x >>> 1) &&& 3) <<< 1) ||| (x &&& 1) = x := by
  decide

set_option maxRecDepth 4000 in
/-- Rebuilding the third header byte from its decoded fields. -/
theorem hdrByte2_rebuild : ∀ x < 256,
    ((x >>> 4) <<< 4) ||| (((x >>> 2) &&& 3) <<< 2) ||| (((x >>> 1) &&& 1) <<< 1)
      ||| (x &&& 1) = x := by
  decide

set_option maxRecDepth 4000 in
/-- Rebuilding the fourth header byte from its decoded fields. -/
theorem hdrByte3_rebuild : ∀ x < 256,
    ((x >>> 6) <<< 6) ||| (((x >>> 4) &&& 3) <<< 4) ||| (((x >>> 3) &&& 1) <<< 3)
      ||| (((x >>> 2) &&& 1) <<< 2) ||| (x &&& 3) = x := by
  decide

/-- C7: encode after decode is the identity on syntactically valid
headers: for any 4 bytes with the top 11 bits all set (first byte 0xFF,
top 3 bits of the second byte set) and all decoded fields in non-reserved
ranges, `FrameHeader.encode` of the decoded header returns exactly the
original bytes. -/
theorem C7_encode_decode_roundtrip (b0 b1 b2 b3 : Nat)
    (h0 : b0 = 0xff) (h1 : b1 &&& 0xe0 = 0xe0)
    (hb1 : b1 < 256) (hb2 : b2 < 256) (hb3 : b3 < 256)
    (_hver : (b1 >>> 3) &&& 3 ≠ 1) (_hlay : (b1 >>> 1) &&& 3 ≠ 0)
    (_hbr0 : b2 >>> 4 ≠ 0) (_hbr15 : b2 >>> 4 ≠ 15)
    (_hsr : (b2 >>> 2) &&& 3 ≠ 3) (_hemph : b3 &&& 3 ≠ 2) :
    (FrameHeader.ofBytes [b0, b1, b2, b3]).bind FrameHeader.encode
      = some [b0, b1, b2, b3] := by
  subst h0
  have hdec : FrameHeader.ofBytes [0xff, b1, b2, b3] = some
      { version_index := (b1 >>> 3) &&& 3, layer_index := (b1 >>> 1) &&& 3
        protection_bit := b1 &&& 1, bitrate_index := b2 >>> 4
        samplerate_index := (b2 >>> 2) &&& 3, padded := (b2 >>> 1) &&& 1
        priv := b2 &&& 1, channel_mode := b3 >>> 6
        mode_extension := (b3 >>> 4) &&& 3, copy_control := (b3 >>> 3) &&& 1
        original := (b3 >>> 2) &&& 1, emphasis := b3 &&& 3
        raw_data := [0xff, b1, b2, b3] } := by
    simp [FrameHeader.ofBytes]
  rw [hdec, Option.some_bind]
  have hq2 : b2 >>> 4 ≤ 15 := by rw [Nat.shiftRight_eq_div_pow]; omega
  have hq3 : b3 >>> 6 ≤ 3 := by rw [Nat.shiftRight_eq_div_pow]; omega
  have e1 := hdrByte1_rebuild b1 hb1 h1
  have e2 := hdrByte2_rebuild b2 hb2
  have e3 := hdrByte3_rebuild b3 hb3
  simp only [FrameHeader.encode]
  rw [if_neg]
  · simp only [Option.some.injEq]
    rw [e1, e2, e3]
  · push_neg
    exact ⟨Nat.and_le_right, Nat.and_le_right, Nat.and_le_right, hq2,
      Nat.and_le_right, Nat.and_le_right, Nat.and_le_right, hq3,
      Nat.and_le_right, Nat.and_le_right, Nat.and_le_right, Nat.and_le_right⟩

/-- Witness for C7 at the header bytes `FF FB 90 00`. -/
theorem C7_encode_decode_roundtrip_witness :
    (FrameHeader.ofBytes [0xff, 0xfb, 0x90, 0x00]).bind FrameHeader.encode
      = some [0xff, 0xfb, 0x90, 0x00] :=
  C7_encode_decode_roundtrip 0xff 0xfb 0x90 0x00 rfl (by decide) (by decide)
    (by decide) (by decide) (by decide) (by decide) (by decide) (by decide)
    (by decide) (by decide)

/-- C8: for every layer-3 frame, with `begin = main_data_begin`,
`main_len = part2_3_bytes` and `end = main_len - begin`, the main data
returned by `frame_in` is: `None` if `begin > len(reservoir)`; else
`None` if `end > len(raw_body)`; else the reservoir slice
`reservoir[-begin:end]` (here `drop (len - begin)` then `take main_len`)
if `end < 0`; else `reservoir[-begin:] ++ raw_body[:end]` if `begin > 0`;
else `raw_body[:end]`. -/
theorem C8_frame_in_main_data (a : Assembler) (fr : MP3Frame) (si : SideInfo)
    (hl : fr.header.layer_index = 1) (hsi : fr.side_info = some si) :
    (frame_in a fr).map Prod.snd = some
      (if a.reservoir.length < si_main_data_begin si then none
       else if (fr.raw_body.length : Int)
           < (si_part2_3_bytes si : Int) - (si_main_data_begin si : Int) then none
       else if (si_part2_3_bytes si : Int) - (si_main_data_begin si : Int) < 0 then
         some ((a.reservoir.drop (a.reservoir.length - si_main_data_begin si)).take
           (si_part2_3_bytes si))
       else if 0 < si_main_data_begin si then
         some (a.reservoir.drop (a.reservoir.length - si_main_data_begin si)
           ++ fr.raw_body.take (si_part2_3_bytes si - si_main_data_begin si))
       else some (fr.raw_body.take (si_part2_3_bytes si))) := by
  rw [frame_in, if_neg (by omega), hsi]
  by_cases h1 : a.reservoir.length < si_main_data_begin si
  · simp [h1]
  · by_cases h2 : (fr.raw_body.length : Int)
        < (si_part2_3_bytes si : Int) - (si_main_data_begin si : Int)
    · simp [h1, h2]
    · by_cases h3 : (si_part2_3_bytes si : Int) - (si_main_data_begin si : Int) < 0
      · have harg : ((a.reservoir.length : Int)
            + ((si_part2_3_bytes si : Int) - (si_main_data_begin si : Int))).toNat
            - (a.reservoir.length - si_main_data_begin si) = si_part2_3_bytes si := by
          omega
        simp [h1, h2, h3, harg]
      · have harg : ((si_part2_3_bytes si : Int) - (si_main_data_begin si : Int)).toNat
            = si_part2_3_bytes si - si_main_data_begin si := by omega
        by_cases h4 : 0 < si_main_data_begin si
        · simp [h1, h2, h3, h4, harg]
        · have h0 : si_main_data_begin si = 0 := by omega
          simp [h1, h2, h3, h4, harg, h0]

/-- Witness for C8: a layer-3 frame whose all-zero MPEG1 stereo side info
gives `begin = 0` and `main_len = 0`, so the returned main data is the
empty body slice. -/
theorem C8_frame_in_main_data_witness :
    (frame_in { reservoir := [1, 2, 3], last_end := 0, ancillary_skipped := 0 }
      { header := { version_index := 3, layer_index := 1, protection_bit := 1
                    bitrate_index := 0, samplerate_index := 0, padded := 0, priv := 0
                    channel_mode := 0, mode_extension := 0, copy_control := 0
                    original := 0, emphasis := 0, raw_data := [255, 251, 0, 0] }
        side_info := some { version_index := 3, channel_mode := 0
                            raw_data := List.replicate 32 0 }
        raw_body := [9, 8], crc16 := none, resynced := false
        frame_number := 0, byte_position := 0 }).map Prod.snd
      = some (some []) := by
  have h := C8_frame_in_main_data
    { reservoir := [1, 2, 3], last_end := 0, ancillary_skipped := 0 }
    { header := { version_index := 3, layer_index := 1, protection_bit := 1
                  bitrate_index := 0, samplerate_index := 0, padded := 0, priv := 0
                  channel_mode := 0, mode_extension := 0, copy_control := 0
                  original := 0, emphasis := 0, raw_data := [255, 251, 0, 0] }
      side_info := some { version_index := 3, channel_mode := 0
                          raw_data := List.replicate 32 0 }
      raw_body := [9, 8], crc16 := none, resynced := false
      frame_number := 0, byte_position := 0 }
    { version_index := 3, channel_mode := 0, raw_data := List.replicate 32 0 }
    rfl rfl
  rw [h]
  decide

/-- Left-commutativity of natural xor (helper for associative-commutative
rewriting). -/
theorem natXor_left_comm (a b c : Nat) : a ^^^ (b ^^^ c) = b ^^^ (a ^^^ c) := by
  rw [← Nat.xor_assoc, Nat.xor_comm a b, Nat.xor_assoc]

/-- Xor distributes over right shift (bitwise view). -/
theorem natXor_shiftRight (a b i : Nat) : (a ^^^ b) >>> i = (a >>> i) ^^^ (b >>> i) := by
  apply Nat.eq_of_testBit_eq
  intro j
  simp [Nat.testBit_shiftRight, Nat.testBit_xor]

/-- Xor distributes over left shift (bitwise view). -/
theorem natXor_shiftLeft (a b i : Nat) : (a ^^^ b) <<< i = (a <<< i) ^^^ (b <<< i) := by
  apply Nat.eq_of_testBit_eq
  intro j
  simp only [Nat.testBit_shiftLeft, Nat.testBit_xor]
  cases h : decide (i ≤ j) <;> simp

/-- Keeping the low 15 bits and shifting left by one is reduction
modulo 2^16 of the shift. -/
theorem maskShift_eq_modShift (m : Nat) : (m &&& 0x7fff) <<< 1 = (m <<< 1) % 65536 := by
  have h : m &&& 0x7fff = m % 32768 := Nat.and_pow_two_sub_one_eq_mod m 15
  rw [h, Nat.shiftLeft_eq, Nat.shiftLeft_eq]
  omega

/-- One `crc16_bits` step always yields a 16-bit value. -/
theorem crcStep_lt (c b : Nat) : crcStep c b < 65536 := by
  have h1 : c &&& 0x7fff ≤ 0x7fff := Nat.and_le_right
  have h2 : (c &&& 0x7fff) <<< 1 < 65536 := by rw [Nat.shiftLeft_eq]; omega
  rw [crcStep]
  split
  · exact Nat.xor_lt_two_pow (n := 16) h2 (by omega)
  · exact h2

/-- `crc16_bits` stays below 2^16 when started below 2^16. -/
theorem crc16_bits_lt (n : Nat) : ∀ v c : Nat, c < 65536 → crc16_bits v n c < 65536 := by
  induction n with
  | zero => intro v c hc; exact hc
  | succ n ih => intro v c _; exact ih v _ (crcStep_lt c _)

/-- GF(2)-linearity of one CRC step: xoring a 16-bit value `m` into the
register is the same as xoring its top bit into the input bit and its
shifted low bits into the result. -/
theorem crcStep_xor (c m b : Nat) :
    crcStep (c ^^^ m) b = crcStep c (b ^^^ (m >>> 15)) ^^^ ((m &&& 0x7fff) <<< 1) := by
  have hand : (c ^^^ m) &&& 0x7fff = (c &&& 0x7fff) ^^^ (m &&& 0x7fff) :=
    Nat.and_xor_distrib_right
  have hbits : b ^^^ ((c ^^^ m) >>> 15) = (b ^^^ (m >>> 15)) ^^^ (c >>> 15) := by
    rw [natXor_shiftRight]
    simp [Nat.xor_assoc, Nat.xor_comm, natXor_left_comm]
  rw [crcStep, crcStep, hbits]
  split
  · rw [hand, natXor_shiftLeft]
    simp [Nat.xor_assoc, Nat.xor_comm, natXor_left_comm]
  · rw [hand, natXor_shiftLeft]

/-- `crc16_bits` reads only the low `bits` bits of its value argument. -/
theorem crc16_bits_congr (n : Nat) : ∀ v1 v2 c : Nat,
    (∀ j < n, v1.testBit j = v2.testBit j) → crc16_bits v1 n c = crc16_bits v2 n c := by
  induction n with
  | zero => intro v1 v2 c _; rfl
  | succ n ih =>
    intro v1 v2 c h
    have hb : (v1 >>> n) &&& 1 = (v2 >>> n) &&& 1 := by
      have ht := h n (by omega)
      rw [Nat.testBit_to_div_mod, Nat.testBit_to_div_mod, decide_eq_decide] at ht
      rw [Nat.and_one_is_mod, Nat.and_one_is_mod,
        Nat.shiftRight_eq_div_pow, Nat.shiftRight_eq_div_pow]
      omega
    rw [crc16_bits, crc16_bits, hb]
    exact ih v1 v2 _ (fun j hj => h j (by omega))

/-- Relating a CRC register seeded with `c ^^^ m` to one seeded with `c`:
after `n ≤ 16` steps the difference `m` has fed its top `n` bits into the
input stream and its remaining bits are shifted up modulo 2^16.  This is
the standard correctness argument for table-driven CRCs. -/
theorem crcRelate (n : Nat) : ∀ v c m : Nat, n ≤ 16 → m < 65536 →
    crc16_bits v n (c ^^^ m)
      = crc16_bits (v ^^^ (m >>> (16 - n))) n c ^^^ ((m <<< n) % 65536) := by
  induction n with
  | zero =>
    intro v c m _ hm
    simp [crc16_bits, Nat.mod_eq_of_lt hm]
  | succ n ih =>
    intro v c m hn hm
    have hm2 : (m &&& 0x7fff) <<< 1 < 65536 := by
      rw [maskShift_eq_modShift]; omega
    rw [crc16_bits, crcStep_xor c m _, ih v _ _ (by omega) hm2]
    have hval : ∀ j < n,
        ((v ^^^ (m >>> (15 - n))).testBit j)
          = ((v ^^^ (((m &&& 0x7fff) <<< 1) >>> (16 - n))).testBit j) := by
      intro j hj
      have e1 : (m >>> (15 - n)).testBit j = m.testBit (15 - n + j) := by
        simp [Nat.testBit_shiftRight]
      have e2 : (((m &&& 0x7fff) <<< 1) >>> (16 - n)).testBit j
          = m.testBit (15 - n + j) := by
        rw [maskShift_eq_modShift]
        simp only [Nat.testBit_shiftRight]
        rw [show (65536 : Nat) = 2 ^ 16 by norm_num, Nat.testBit_mod_two_pow]
        have hlt : 16 - n + j < 16 := by omega
        rw [Nat.testBit_shiftLeft]
        have hge : 16 - n + j ≥ 1 := by omega
        have hidx : 16 - n + j - 1 = 15 - n + j := by omega
        simp [hlt, hge, hidx]
      simp [Nat.testBit_xor, e1, e2]
    have hbit : ((v ^^^ (m >>> (15 - n))) >>> n) &&& 1
        = ((v >>> n) &&& 1) ^^^ (m >>> 15) := by
      rw [natXor_shiftRight, Nat.and_xor_distrib_right, ← Nat.shiftRight_add]
      have h15 : 15 - n + n = 15 := by omega
      rw [h15]
      have ht : m >>> 15 ≤ 1 := by rw [Nat.shiftRight_eq_div_pow]; omega
      have : (m >>> 15) &&& 1 = m >>> 15 := by
        rw [Nat.and_one_is_mod]; omega
      rw [this]
    have hmodmul : ∀ a k : Nat, a % 65536 * k % 65536 = a * k % 65536 := by
      intro a k
      conv_rhs => rw [Nat.mul_mod]
      conv_lhs => rw [Nat.mul_mod]
      have : a % 65536 % 65536 = a % 65536 := by omega
      rw [this]
    have htail : (((m &&& 0x7fff) <<< 1) <<< n) % 65536 = (m <<< (n + 1)) % 65536 := by
      rw [maskShift_eq_modShift, Nat.shiftLeft_eq, Nat.shiftLeft_eq, Nat.shiftLeft_eq]
      have e4 : m * 2 ^ (n + 1) = m * 2 ^ 1 * 2 ^ n := by ring
      rw [e4, hmodmul]
    have hsub : 16 - (n + 1) = 15 - n := by omega
    rw [hsub, crc16_bits, hbit,
      crc16_bits_congr n _ _ _ (fun j hj => (hval j hj).symm), htail]

/-- One byte through the table update equals eight bit steps: for a
16-bit register `s` the table-driven update of `crc16` computes
`crc16_bits(ch, 8, s)`. -/
theorem crc_byte_table (s ch : Nat) (hs : s < 65536) :
    ((s &&& 0xff) <<< 8) ^^^ crc_table ((s >>> 8) ^^^ ch) = crc16_bits ch 8 s := by
  have h := crcRelate 8 ch 0 s (by omega) hs
  rw [Nat.zero_xor] at h
  have e1 : (s <<< 8) % 65536 = (s &&& 0xff) <<< 8 := by
    have : s &&& 0xff = s % 256 := Nat.and_pow_two_sub_one_eq_mod s 8
    rw [this, Nat.shiftLeft_eq, Nat.shiftLeft_eq]
    omega
  rw [e1] at h
  rw [h, crc_table, Nat.xor_comm ch (s >>> 8)]
  exact Nat.xor_comm _ _

/-- C9: the byte-table-driven `crc16` is a refinement of the bit-granular
`crc16_bits`: for every byte sequence and every 16-bit start value, it
equals folding `crc16_bits(byte, 8, crc)` over the bytes.  Both therefore
compute CRC-16 with polynomial 0x8005, MSB-first, no reflection and no
final xor, from the same start value (0xFFFF by default). -/
theorem C9_crc16_table_refines_bits (d : List Nat) (start : Nat)
    (hs : start < 65536) (hd : ∀ x ∈ d, x < 256) :
    crc16 d start = d.foldl (fun c ch => crc16_bits ch 8 c) start := by
  induction d generalizing start with
  | nil => rfl
  | cons ch tl ih =>
    simp only [crc16, List.foldl_cons]
    rw [crc_byte_table start ch hs]
    exact ih (crc16_bits ch 8 start) (crc16_bits_lt 8 ch start hs)
      (fun x hx => hd x (List.mem_cons_of_mem ch hx))

/-- Witness for C9 on the bytes `[0x12, 0x34]` from start 0xFFFF. -/
theorem C9_crc16_table_refines_bits_witness :
    crc16 [0x12, 0x34] 0xffff
      = [0x12, 0x34].foldl (fun c ch => crc16_bits ch 8 c) 0xffff :=
  C9_crc16_table_refines_bits [0x12, 0x34] 0xffff (by decide) (by decide)

/-- The `identify` operation can change only `sync_skip` (through its
internal `resync()` call); every other field, in particular the buffer
and `bytes_returned`, is untouched. -/
theorem identifyFn_state (s : Sync) :
    ∃ k, (identifyFn s).1 = { s with sync_skip := k } := by
  unfold identifyFn
  dsimp only
  repeat' split
  all_goals exact ⟨_, rfl⟩

/-- C10: `bytes_returned + len(data)` equals the total number of bytes
ever appended, in every state reachable by fromfile/feed, resync,
identify and advance; moreover a non-failing `advance(k)` adds exactly
`k` to `bytes_returned` and drops exactly the first `k` buffered bytes,
while `resync` and `identify` change neither `bytes_returned` nor the
buffer. -/
theorem C10_buffer_accounting :
    (∀ (s : Sync) (n : Nat), Reach s n → s.bytes_returned + s.data.length = n)
    ∧ (∀ (s : Sync) (k : Nat) (s2 : Sync), advanceFn s k = some s2 →
        s2.bytes_returned = s.bytes_returned + k ∧ s2.data = s.data.drop k ∧ k ≤ s.data.length)
    ∧ (∀ (s : Sync) (off : Nat) (hdr msk : Option Nat),
        (resyncFn s off hdr msk).2.bytes_returned = s.bytes_returned
        ∧ (resyncFn s off hdr msk).2.data = s.data)
    ∧ (∀ s : Sync, (identifyFn s).1.bytes_returned = s.bytes_returned
        ∧ (identifyFn s).1.data = s.data) := by
  have hadv : ∀ (s : Sync) (k : Nat) (s2 : Sync), advanceFn s k = some s2 →
      s2.bytes_returned = s.bytes_returned + k ∧ s2.data = s.data.drop k
      ∧ k ≤ s.data.length := by
    intro s k s2 h
    rw [advanceFn] at h
    split at h
    · exact absurd h (by simp)
    · injection h with h2
      subst h2
      refine ⟨rfl, rfl, by omega⟩
  have hident : ∀ s : Sync, (identifyFn s).1.bytes_returned = s.bytes_returned
      ∧ (identifyFn s).1.data = s.data := by
    intro s
    obtain ⟨k, hk⟩ := identifyFn_state s
    rw [hk]
    exact ⟨rfl, rfl⟩
  refine ⟨?_, hadv, fun s off hdr msk => ⟨rfl, rfl⟩, hident⟩
  intro s n h
  induction h with
  | init => rfl
  | feed s n chunk eof h he ih => simp only [List.length_append]; omega
  | resyncStep s n off hdr msk h ih => exact ih
  | identifyStep s n h ih =>
    obtain ⟨hb, hd⟩ := hident s
    rw [hb, hd]
    exact ih
  | advanceStep s n k s2 h ha ih =>
    obtain ⟨hb, hd, hk⟩ := hadv s k s2 ha
    rw [hb, hd, List.length_drop]
    omega

/-- Witness for C10: after feeding three bytes and advancing two, the
accounting holds on the concrete reachable state. -/
theorem C10_buffer_accounting_witness :
    Reach { initSync with data := [7], bytes_returned := 2 } 3
    ∧ ({ initSync with data := [7], bytes_returned := 2 } : Sync).bytes_returned
      + ({ initSync with data := [7], bytes_returned := 2 } : Sync).data.length = 3 := by
  have h1 : Reach { initSync with data := [5, 6, 7] } 3 := by
    have h0 := Reach.feed initSync 0 [5, 6, 7] false Reach.init rfl
    exact h0
  have h2 := Reach.advanceStep _ 3 2 _ h1 rfl
  exact ⟨h2, C10_buffer_accounting.1 _ 3 h2⟩

/-- Or distributes over right shift (bitwise view). -/
theorem natOr_shiftRight (a b i : Nat) : (a ||| b) >>> i = (a >>> i) ||| (b >>> i) := by
  apply Nat.eq_of_testBit_eq
  intro j
  simp [Nat.testBit_or]

/-- And distributes over or from the right (bitwise view). -/
theorem natAnd_or_right (a b c : Nat) : (a ||| b) &&& c = (a &&& c) ||| (b &&& c) := by
  apply Nat.eq_of_testBit_eq
  intro j
  simp [Nat.testBit_or, Nat.testBit_and, Bool.and_or_distrib_right]

/-- Recovering the two bytes packed by `(hi << 8) | lo`. -/
theorem packBytes_unpack (a b : Nat) (hb : b < 256) :
    ((a <<< 8) ||| b) >>> 8 = a ∧ ((a <<< 8) ||| b) &&& 0xff = b := by
  constructor
  · rw [natOr_shiftRight]
    have h1 : (a <<< 8) >>> 8 = a := by
      rw [Nat.shiftLeft_eq, Nat.shiftRight_eq_div_pow]; omega
    have h2 : b >>> 8 = 0 := by rw [Nat.shiftRight_eq_div_pow]; omega
    rw [h1, h2, Nat.or_zero]
  · rw [natAnd_or_right]
    have h1 : (a <<< 8) &&& 0xff = 0 := by
      have h := Nat.and_pow_two_sub_one_eq_mod (a <<< 8) 8
      norm_num at h
      rw [h, Nat.shiftLeft_eq]
      omega
    have h2 : b &&& 0xff = b := by
      have h := Nat.and_pow_two_sub_one_eq_mod b 8
      norm_num at h
      rw [h]
      omega
    rw [h1, h2, Nat.zero_or]

/-- Two consecutive buffered bytes as a sublist. -/
theorem dropTake_two (l : List Nat) (i : Nat) (h : i + 2 ≤ l.length) :
    (l.drop i).take 2 = [l.getD i 0, l.getD (i + 1) 0] := by
  have h1 : i < l.length := by omega
  have h2 : i + 1 < l.length := by omega
  rw [List.getD_eq_getElem l 0 h1, List.getD_eq_getElem l 0 h2,
    List.drop_eq_getElem_cons h1, List.drop_eq_getElem_cons h2]
  rfl

/-- A buffered byte is below 256 when the whole buffer is. -/
theorem wf_getD (l : List Nat) (i : Nat) (h : i < l.length)
    (wf : ∀ x ∈ l, x < 256) : l.getD i 0 < 256 := by
  rw [List.getD_eq_getElem l 0 h]
  exact wf _ (List.getElem_mem h)

/-- Four consecutive slices starting at the front concatenate to one
take: the shape of a frame's header, CRC, side-info and body bytes. -/
theorem take_chain (d : List Nat) (a p q r : Nat) :
    d.take a ++ (d.drop a).take p ++ (d.drop (a + p)).take q
      ++ (d.drop (a + p + q)).take r = d.take (a + p + q + r) := by
  have e1 : a + p + q + r = a + (p + (q + r)) := by omega
  rw [e1, List.take_add d a (p + (q + r)), List.take_add (d.drop a) p (q + r),
    List.drop_drop p a d, List.take_add (d.drop (a + p)) q r,
    List.drop_drop q (a + p) d]
  simp [List.append_assoc]

/-- Conservation shape of `buildFrame`: the constructed frame consumes
`sz` bytes, and whenever its stored bytes count exactly `sz` they are the
consumed prefix of the buffer. -/
theorem buildFrame_spec (s : Sync) (head : FrameHeader) (headsz sidesz sz : Nat)
    (siObj : Option SideInfo) (s2 : Sync) (fr : MP3Frame)
    (hhs : headsz = if head.protection_bit = 0 then 6 else 4)
    (hraw : head.raw_data = s.data.take 4)
    (hsi : match siObj with
           | some si => si.raw_data = (s.data.drop headsz).take sidesz
           | none => sidesz = 0)
    (hL : headsz + sidesz ≤ s.data.length)
    (wf : ∀ x ∈ s.data, x < 256)
    (hb : buildFrame s head headsz sidesz sz siObj = (s2, .made fr)) :
    s2.data = s.data.drop sz ∧ s2.bytes_returned = s.bytes_returned + sz
    ∧ ((frameBytes fr).length = sz → frameBytes fr = s.data.take sz) := by
  rw [buildFrame] at hb
  injection hb with hb1 hb2
  injection hb2 with hb2
  subst hb1
  subst hb2
  refine ⟨rfl, rfl, ?_⟩
  intro hlen
  have hhs4 : 4 ≤ headsz := by rw [hhs]; split <;> omega
  have h4 : 4 ≤ s.data.length := by omega
  -- the three non-header byte groups of the frame
  have hcrc : crcBytesOf (if head.protection_bit = 0
        then some (((s.data.getD 4 0) <<< 8) ||| s.data.getD 5 0) else none)
      = (s.data.drop 4).take (headsz - 4) := by
    by_cases hp : head.protection_bit = 0
    · rw [if_pos hp]
      have h6 : 6 ≤ s.data.length := by rw [hhs, if_pos hp] at hL; omega
      have hb5 : s.data.getD 5 0 < 256 := wf_getD _ 5 (by omega) wf
      obtain ⟨e1, e2⟩ := packBytes_unpack (s.data.getD 4 0) (s.data.getD 5 0) hb5
      have h2 : headsz - 4 = 2 := by rw [hhs, if_pos hp]
      rw [h2, dropTake_two s.data 4 (by omega), crcBytesOf]
      simp only [e1, e2]
    · rw [if_neg hp]
      have h0 : headsz - 4 = 0 := by rw [hhs, if_neg hp]
      rw [h0, crcBytesOf]
      simp
  have hsid : siBytesOf siObj = (s.data.drop headsz).take sidesz := by
    rcases siObj with _ | si
    · dsimp only at hsi
      rw [siBytesOf, hsi]
      simp
    · exact hsi
  have hss : headsz + sidesz ≤ sz := by
    rw [frameBytes] at hlen
    simp only [hcrc, hsid, hraw, List.length_append, List.length_take,
      List.length_drop] at hlen
    omega
  rw [frameBytes]
  simp only [hcrc, hsid, hraw]
  have echain := take_chain s.data 4 (headsz - 4) sidesz (sz - (headsz + sidesz))
  have e0 : 4 + (headsz - 4) = headsz := by omega
  rw [e0] at echain
  have e2 : headsz + sidesz + (sz - (headsz + sidesz)) = sz := by omega
  rw [e2] at echain
  rw [← echain]

/-- Shape facts about a successfully decoded header: its raw bytes are
the first four input bytes and every field is within its bit width
(given the input holds bytes). -/
theorem ofBytes_fields (data : List Nat) (hd : FrameHeader)
    (wf : ∀ x ∈ data, x < 256)
    (h : FrameHeader.ofBytes data = some hd) :
    hd.raw_data = data.take 4 ∧ hd.protection_bit ≤ 1 ∧ hd.version_index < 4
    ∧ hd.layer_index < 4 ∧ hd.bitrate_index < 16 ∧ hd.samplerate_index < 4
    ∧ hd.padded < 2 ∧ hd.channel_mode < 4 := by
  rw [FrameHeader.ofBytes] at h
  split at h
  · exact absurd h (by simp)
  · rename_i hlen
    have h2 : data.getD 2 0 < 256 := wf_getD _ 2 (by omega) wf
    have h3 : data.getD 3 0 < 256 := wf_getD _ 3 (by omega) wf
    injection h with h
    subst h
    dsimp only
    refine ⟨rfl, Nat.and_le_right, ?_, ?_, ?_, ?_, ?_, ?_⟩
    · have := Nat.and_le_right (n := data.getD 1 0 >>> 3) (m := 3); omega
    · have := Nat.and_le_right (n := data.getD 1 0 >>> 1) (m := 3); omega
    · rw [Nat.shiftRight_eq_div_pow]
      omega
    · have := Nat.and_le_right (n := data.getD 2 0 >>> 2) (m := 3); omega
    · have := Nat.and_le_right (n := data.getD 2 0 >>> 1) (m := 1); omega
    · rw [Nat.shiftRight_eq_div_pow]
      omega

/-- Finite check over all decodable header fields: whenever `frame_size`
returns a known size, that size is at least 6 bytes plus the layer-3
side-info size, so a known-size frame always covers its header, CRC and
side info. -/
theorem framesize_min : ∀ v < 4, ∀ l < 4, ∀ br < 16, ∀ sr < 4, ∀ p < 2, ∀ cm < 4,
    (match frame_size v l br sr p with
     | some (some sz) => decide (6 + (if l = 1 then side_info_size v cm else 0) ≤ sz)
     | _ => true) = true := by
  decide

/-- The conclusion of `framesize_min` in rewriting-friendly form. -/
theorem framesize_min_of_eq (v l br sr p cm sz : Nat)
    (hv : v < 4) (hl : l < 4) (hbr : br < 16) (hsr : sr < 4) (hp : p < 2) (hcm : cm < 4)
    (h : frame_size v l br sr p = some (some sz)) :
    6 + (if l = 1 then side_info_size v cm else 0) ≤ sz := by
  have hm := framesize_min v hv l hl br hbr sr hsr p hp cm hcm
  rw [h] at hm
  exact of_decide_eq_true hm

/-- A `finishFrame` outcome other than a frame leaves the buffer and the
byte counter untouched. -/
theorem finishFrame_other (s : Sync) (head : FrameHeader) (headsz sidesz : Nat)
    (siObj : Option SideInfo) (szI : Int) (s2 : Sync) (r : CreateRes)
    (h : finishFrame s head headsz sidesz siObj szI = (s2, r))
    (hr : ∀ fr, r ≠ .made fr) :
    s2.data = s.data ∧ s2.bytes_returned = s.bytes_returned := by
  rw [finishFrame] at h
  split at h
  · injection h with h1 h2
    subst h1
    exact ⟨rfl, rfl⟩
  · split at h
    · injection h with h1 h2
      subst h1
      exact ⟨rfl, rfl⟩
    · rw [buildFrame] at h
      injection h with h1 h2
      exact absurd h2.symm (hr _)

/-- A frame produced by `finishFrame` consumes a positive number of
bytes bounded by the buffer, and its stored bytes reproduce the consumed
prefix when their count matches. -/
theorem finishFrame_made (s : Sync) (head : FrameHeader) (headsz sidesz : Nat)
    (siObj : Option SideInfo) (szI : Int) (s2 : Sync) (fr : MP3Frame)
    (hhs : headsz = if head.protection_bit = 0 then 6 else 4)
    (hraw : head.raw_data = s.data.take 4)
    (hsi : match siObj with
           | some si => si.raw_data = (s.data.drop headsz).take sidesz
           | none => sidesz = 0)
    (hL : headsz + sidesz ≤ s.data.length)
    (wf : ∀ x ∈ s.data, x < 256)
    (h : finishFrame s head headsz sidesz siObj szI = (s2, .made fr)) :
    ∃ sz : Nat, 0 < sz ∧ sz ≤ s.data.length ∧ s2.data = s.data.drop sz
      ∧ s2.bytes_returned = s.bytes_returned + sz
      ∧ ((frameBytes fr).length = sz → frameBytes fr = s.data.take sz) := by
  rw [finishFrame] at h
  split at h
  · simp at h
  · split at h
    · simp at h
    · rename_i hpos hlen
      obtain ⟨h1, h2, h3⟩ := buildFrame_spec s head headsz sidesz szI.toNat siObj
        s2 fr hhs hraw hsi hL wf h
      exact ⟨szI.toNat, by omega, by omega, h1, h2, h3⟩

/-- A `freeformCont` outcome other than a frame leaves the buffer and the
byte counter untouched. -/
theorem freeformCont_other (s : Sync) (head : FrameHeader) (headsz sidesz : Nat)
    (siObj : Option SideInfo) (offset : Nat) (szI : Int) (s2 : Sync) (r : CreateRes)
    (h : freeformCont s head headsz sidesz siObj offset szI = (s2, r))
    (hr : ∀ fr, r ≠ .made fr) :
    s2.data = s.data ∧ s2.bytes_returned = s.bytes_returned := by
  rw [freeformCont] at h
  dsimp only at h
  split at h
  · injection h with h1 h2
    subst h1
    exact ⟨rfl, rfl⟩
  · split at h
    · obtain ⟨h1, h2⟩ := finishFrame_other
        { s with base_framesize := szI - (if head.padded ≠ 0
            then (((sample_size head.layer_index).getD 0 : Nat) : Int) else 0) }
        head headsz sidesz siObj szI s2 r h hr
      exact ⟨h1, h2⟩
    · exact finishFrame_other s head headsz sidesz siObj szI s2 r h hr

/-- A frame produced by `freeformCont` satisfies the conservation shape. -/
theorem freeformCont_made (s : Sync) (head : FrameHeader) (headsz sidesz : Nat)
    (siObj : Option SideInfo) (offset : Nat) (szI : Int) (s2 : Sync) (fr : MP3Frame)
    (hhs : headsz = if head.protection_bit = 0 then 6 else 4)
    (hraw : head.raw_data = s.data.take 4)
    (hsi : match siObj with
           | some si => si.raw_data = (s.data.drop headsz).take sidesz
           | none => sidesz = 0)
    (hL : headsz + sidesz ≤ s.data.length)
    (wf : ∀ x ∈ s.data, x < 256)
    (h : freeformCont s head headsz sidesz siObj offset szI = (s2, .made fr)) :
    ∃ sz : Nat, 0 < sz ∧ sz ≤ s.data.length ∧ s2.data = s.data.drop sz
      ∧ s2.bytes_returned = s.bytes_returned + sz
      ∧ ((frameBytes fr).length = sz → frameBytes fr = s.data.take sz) := by
  rw [freeformCont] at h
  dsimp only at h
  split at h
  · simp at h
  · split at h
    · obtain ⟨sz, q1, q2, q3, q4, q5⟩ := finishFrame_made
        { s with base_framesize := szI - (if head.padded ≠ 0
            then (((sample_size head.layer_index).getD 0 : Nat) : Int) else 0) }
        head headsz sidesz siObj szI s2 fr hhs hraw hsi hL wf h
      exact ⟨sz, q1, q2, q3, q4, q5⟩
    · exact finishFrame_made s head headsz sidesz siObj szI s2 fr hhs hraw hsi hL wf h

/-- A `searchFreeform` outcome other than a frame leaves the buffer and
the byte counter untouched (only `sync_skip` and `base_framesize` may
change, through the internal `resync` call and the autodetection). -/
theorem searchFreeform_other (s : Sync) (head : FrameHeader) (headsz sidesz : Nat)
    (siObj : Option SideInfo) (s2 : Sync) (r : CreateRes)
    (h : searchFreeform s head headsz sidesz siObj = (s2, r))
    (hr : ∀ fr, r ≠ .made fr) :
    s2.data = s.data ∧ s2.bytes_returned = s.bytes_returned := by
  rw [searchFreeform.eq_def] at h
  dsimp only at h
  rcases hR : resyncFn s (ffOffset headsz sidesz siObj)
      (some ((0xff <<< 24) ||| ((s.data.getD 1 0) <<< 16) ||| ((s.data.getD 2 0) <<< 8)))
      (some 0xfffffc00) with ⟨ret, s1⟩
  have hs1d : s1.data = s.data := by
    have e := congrArg (fun p => (Prod.snd p).data) hR
    exact e.symm
  have hs1b : s1.bytes_returned = s.bytes_returned := by
    have e := congrArg (fun p => (Prod.snd p).bytes_returned) hR
    exact e.symm
  rw [hR] at h
  dsimp only at h
  split at h
  · split at h
    · injection h with h1 h2
      subst h1
      exact ⟨hs1d, hs1b⟩
    · split at h
      · injection h with h1 h2
        subst h1
        exact ⟨hs1d, hs1b⟩
      · obtain ⟨h1, h2⟩ := freeformCont_other s1 _ _ _ _ _ _ _ _ h hr
        rw [hs1d] at h1
        rw [hs1b] at h2
        exact ⟨h1, h2⟩
  · obtain ⟨h1, h2⟩ := freeformCont_other s1 _ _ _ _ _ _ _ _ h hr
    rw [hs1d] at h1
    rw [hs1b] at h2
    exact ⟨h1, h2⟩

/-- A frame produced by `searchFreeform` satisfies the conservation
shape. -/
theorem searchFreeform_made (s : Sync) (head : FrameHeader) (headsz sidesz : Nat)
    (siObj : Option SideInfo) (s2 : Sync) (fr : MP3Frame)
    (hhs : headsz = if head.protection_bit = 0 then 6 else 4)
    (hraw : head.raw_data = s.data.take 4)
    (hsi : match siObj with
           | some si => si.raw_data = (s.data.drop headsz).take sidesz
           | none => sidesz = 0)
    (hL : headsz + sidesz ≤ s.data.length)
    (wf : ∀ x ∈ s.data, x < 256)
    (h : searchFreeform s head headsz sidesz siObj = (s2, .made fr)) :
    ∃ sz : Nat, 0 < sz ∧ sz ≤ s.data.length ∧ s2.data = s.data.drop sz
      ∧ s2.bytes_returned = s.bytes_returned + sz
      ∧ ((frameBytes fr).length = sz → frameBytes fr = s.data.take sz) := by
  rw [searchFreeform.eq_def] at h
  dsimp only at h
  rcases hR : resyncFn s (ffOffset headsz sidesz siObj)
      (some ((0xff <<< 24) ||| ((s.data.getD 1 0) <<< 16) ||| ((s.data.getD 2 0) <<< 8)))
      (some 0xfffffc00) with ⟨ret, s1⟩
  have hs1d : s1.data = s.data := by
    have e := congrArg (fun p => (Prod.snd p).data) hR
    exact e.symm
  have hs1b : s1.bytes_returned = s.bytes_returned := by
    have e := congrArg (fun p => (Prod.snd p).bytes_returned) hR
    exact e.symm
  rw [hR] at h
  dsimp only at h
  have happ : ∀ off szI,
      freeformCont s1 head headsz sidesz siObj off szI = (s2, .made fr) →
      ∃ sz : Nat, 0 < sz ∧ sz ≤ s.data.length ∧ s2.data = s.data.drop sz
        ∧ s2.bytes_returned = s.bytes_returned + sz
        ∧ ((frameBytes fr).length = sz → frameBytes fr = s.data.take sz) := by
    intro off szI hc
    obtain ⟨sz, q1, q2, q3, q4, q5⟩ := freeformCont_made
      s1 head headsz sidesz siObj off szI s2 fr
      hhs (by rw [hs1d]; exact hraw) (by rw [hs1d]; exact hsi)
      (by rw [hs1d]; exact hL) (by rw [hs1d]; exact wf) hc
    rw [hs1d] at q2 q3 q5
    rw [hs1b] at q4
    exact ⟨sz, q1, q2, q3, q4, q5⟩
  split at h
  · split at h
    · simp at h
    · split at h
      · simp at h
      · exact happ _ _ h
  · exact happ _ _ h

/-- Shape of the side-info object built inside `_create_frame`: either it
records the side-info slice of the buffer, or the side-info size is 0. -/
theorem mkSiObj_spec (d : List Nat) (v cmode headsz sidesz : Nat) :
    (match (if sidesz ≠ 0 then
        some { version_index := v, channel_mode := cmode,
               raw_data := (d.drop headsz).take sidesz } else none : Option SideInfo) with
     | some si => si.raw_data = (d.drop headsz).take sidesz
     | none => sidesz = 0) := by
  by_cases hs : sidesz ≠ 0
  · simp only [if_pos hs]
  · simp only [if_neg hs]
    exact not_not.mp hs

/-- A `_create_frame` outcome other than a frame leaves the buffer and
the byte counter untouched. -/
theorem createFrame_other (s s2 : Sync) (r : CreateRes)
    (h : createFrame s = (s2, r)) (hr : ∀ fr, r ≠ .made fr) :
    s2.data = s.data ∧ s2.bytes_returned = s.bytes_returned := by
  rw [createFrame] at h
  dsimp only at h
  repeat' split at h
  all_goals first
    | (injection h with h1 h2; subst h1; exact ⟨rfl, rfl⟩)
    | exact finishFrame_other _ _ _ _ _ _ _ _ h hr
    | exact searchFreeform_other _ _ _ _ _ _ _ h hr

/-- A frame produced by `_create_frame` consumes a positive number of
bytes bounded by the buffer, and its stored bytes reproduce the consumed
prefix whenever their count matches. -/
theorem createFrame_made (s s2 : Sync) (fr : MP3Frame)
    (wf : ∀ x ∈ s.data, x < 256)
    (h : createFrame s = (s2, .made fr)) :
    ∃ sz : Nat, 0 < sz ∧ sz ≤ s.data.length ∧ s2.data = s.data.drop sz
      ∧ s2.bytes_returned = s.bytes_returned + sz
      ∧ ((frameBytes fr).length = sz → frameBytes fr = s.data.take sz) := by
  rw [createFrame] at h
  dsimp only at h
  split at h
  · simp at h
  · rename_i head hof
    obtain ⟨hraw, hprot, hver, hlay, hbr, hsr, hpad, hcm⟩ := ofBytes_fields s.data head wf hof
    split at h
    · simp at h
    · rename_i szN hfs
      rcases szN with _ | sz
      · dsimp only at h
        revert h
        generalize hHS : (if head.protection_bit = 0 then (6:Nat) else 4) = HS
        generalize hSS : (if head.layer_index = 1
            then side_info_size head.version_index head.channel_mode else 0) = SS
        intro h
        split at h
        · simp at h
        · rename_i hlen
          have hL : HS + SS ≤ s.data.length := by omega
          repeat' split at h
          all_goals first
            | exact finishFrame_made s head HS SS _ _ s2 fr hHS.symm hraw
                (mkSiObj_spec s.data head.version_index head.channel_mode HS SS) hL wf h
            | exact searchFreeform_made s head HS SS _ s2 fr hHS.symm hraw
                (mkSiObj_spec s.data head.version_index head.channel_mode HS SS) hL wf h
            | exact finishFrame_made s head HS SS _ _ s2 fr hHS.symm hraw rfl hL wf h
            | exact searchFreeform_made s head HS SS _ s2 fr hHS.symm hraw rfl hL wf h
            | (rename_i hss
               exact finishFrame_made s head HS SS _ _ s2 fr hHS.symm hraw
                 (not_not.mp hss) hL wf h)
            | (rename_i hss
               exact searchFreeform_made s head HS SS _ s2 fr hHS.symm hraw
                 (not_not.mp hss) hL wf h)
      · dsimp only at h
        have hfs2 : frame_size head.version_index head.layer_index
            head.bitrate_index head.samplerate_index head.padded = some (some sz) := hfs
        have hmin := framesize_min_of_eq head.version_index head.layer_index
          head.bitrate_index head.samplerate_index head.padded head.channel_mode sz
          hver hlay hbr hsr hpad hcm hfs2
        revert h
        generalize hHS : (if head.protection_bit = 0 then (6:Nat) else 4) = HS
        generalize hSS : (if head.layer_index = 1
            then side_info_size head.version_index head.channel_mode else 0) = SS
        intro h
        rw [hSS] at hmin
        have hh6 : HS ≤ 6 := by rw [← hHS]; split <;> omega
        simp only [if_pos (show sz ≠ 0 by omega)] at h
        rw [if_pos (show ((sz : Int) ≠ 0) by omega)] at h
        split at h
        · simp at h
        · rename_i hlen
          have hL : HS + SS ≤ s.data.length := by omega
          exact finishFrame_made s head HS SS _ _ s2 fr hHS.symm hraw
            (mkSiObj_spec s.data head.version_index head.channel_mode HS SS) hL wf h


/-- One `readitem` call either leaves the buffer and the byte counter
unchanged ("need more data", crash) or consumes `k` buffered bytes while
emitting an item; any emitted item whose byte count equals `k` carries
exactly the consumed prefix. -/
theorem readitem_step (s s1 : Sync) (res : ReadRes)
    (wf : ∀ x ∈ s.data, x < 256)
    (h : readitemFn s = (s1, res)) :
    ((res = .needData ∨ res = .crash) →
      s1.data = s.data ∧ s1.bytes_returned = s.bytes_returned)
    ∧ (∀ it, res = .item it → ∃ k, k ≤ s.data.length ∧ s1.data = s.data.drop k
        ∧ s1.bytes_returned = s.bytes_returned + k
        ∧ ((itemBytes it).length = k → itemBytes it = s.data.take k)) := by
  obtain ⟨k0, hk0⟩ := identifyFn_state s
  rw [readitemFn] at h
  dsimp only at h
  rw [hk0] at h
  split at h
  · injection h with h1 h2
    subst h1
    subst h2
    exact ⟨fun _ => ⟨rfl, rfl⟩, fun it hit => by cases hit⟩
  · rename_i hlen4
    split at h
    · injection h with h1 h2
      subst h1
      subst h2
      exact ⟨fun _ => ⟨rfl, rfl⟩, fun it hit => by cases hit⟩
    · rename_i n heqg
      split at h
      · injection h with h1 h2
        subst h1
        subst h2
        exact ⟨fun _ => ⟨rfl, rfl⟩, fun it hit => by cases hit⟩
      · rename_i hnlen
        have hnlen2 : ¬ s.data.length < n := hnlen
        injection h with h1 h2
        subst h1
        subst h2
        refine ⟨fun hc => (by rcases hc with hc | hc <;> cases hc), fun it hit => ?_⟩
        injection hit with hit
        subst hit
        exact ⟨n, by omega, rfl, rfl, fun _ => rfl⟩
    · rename_i kd n heqt
      split at h
      · injection h with h1 h2
        subst h1
        subst h2
        exact ⟨fun _ => ⟨rfl, rfl⟩, fun it hit => by cases hit⟩
      · rename_i hnlen
        have hnlen2 : ¬ s.data.length < n := hnlen
        injection h with h1 h2
        subst h1
        subst h2
        refine ⟨fun hc => (by rcases hc with hc | hc <;> cases hc), fun it hit => ?_⟩
        injection hit with hit
        subst hit
        exact ⟨n, by omega, rfl, rfl, fun _ => rfl⟩
    · rename_i heqs
      rcases hC : createFrame { s with sync_skip := k0 } with ⟨c1, c2⟩
      rw [hC] at h
      dsimp only at h
      rcases c2 with fr2 | _ | _ | _
      · dsimp only at h
        injection h with h1 h2
        subst h1
        subst h2
        obtain ⟨sz, qpos, qle, qd, qb, qc⟩ :=
          createFrame_made { s with sync_skip := k0 } c1 fr2 wf hC
        refine ⟨fun hc => (by rcases hc with hc | hc <;> cases hc), fun it hit => ?_⟩
        injection hit with hit
        subst hit
        exact ⟨sz, qle, qd, qb, qc⟩
      · dsimp only at h
        obtain ⟨e1, e2⟩ := createFrame_other { s with sync_skip := k0 } c1 .moredata hC
          (fun fr hc => CreateRes.noConfusion hc)
        split at h
        · injection h with h1 h2
          subst h1
          subst h2
          exact ⟨fun _ => ⟨e1, e2⟩, fun it hit => by cases hit⟩
        · injection h with h1 h2
          subst h1
          subst h2
          refine ⟨fun hc => (by rcases hc with hc | hc <;> cases hc), fun it hit => ?_⟩
          injection hit with hit
          subst hit
          refine ⟨s.data.length, le_refl _, ?_, ?_, fun _ => ?_⟩
          · show ([] : List Nat) = s.data.drop s.data.length
            rw [List.drop_length]
          · show c1.bytes_returned + c1.data.length = s.bytes_returned + s.data.length
            rw [e1, e2]
          · show c1.data = s.data.take s.data.length
            rw [List.take_length, e1]
      · dsimp only at h
        obtain ⟨e1, e2⟩ := createFrame_other { s with sync_skip := k0 } c1 .lost hC
          (fun fr hc => CreateRes.noConfusion hc)
        injection h with h1 h2
        subst h1
        subst h2
        refine ⟨fun hc => (by rcases hc with hc | hc <;> cases hc), fun it hit => ?_⟩
        injection hit with hit
        subst hit
        refine ⟨1, by omega, ?_, ?_, fun _ => ?_⟩
        · show c1.data.drop 1 = s.data.drop 1
          rw [e1]
        · show c1.bytes_returned + 1 = s.bytes_returned + 1
          rw [e2]
        · show c1.data.take 1 = s.data.take 1
          rw [e1]
      · dsimp only at h
        injection h with h1 h2
        subst h1
        subst h2
        obtain ⟨e1, e2⟩ := createFrame_other { s with sync_skip := k0 } c1 .crash hC
          (fun fr hc => CreateRes.noConfusion hc)
        exact ⟨fun _ => ⟨e1, e2⟩, fun it hit => by cases hit⟩


/-- The clean flag returned by `drainLoop` can only be true when the
initial flag was. -/
theorem drainLoop_ok (fuel : Nat) : ∀ s acc ok,
    (drainLoop fuel s acc ok).2.2 = true → ok = true := by
  induction fuel with
  | zero => intro s acc ok h; exact h
  | succ n ih =>
    intro s acc ok h
    rw [drainLoop] at h
    rcases hr : readitemFn s with ⟨s1, rr⟩
    rw [hr] at h
    dsimp only at h
    rcases rr with it | _ | _
    · have h2 := ih _ _ _ h
      rw [Bool.and_eq_true] at h2
      exact h2.1
    · exact h
    · exact h

/-- Byte conservation of the drain loop: when every emitted item was
clean (flag true), the bytes of the emitted items followed by the
remaining buffer reproduce the starting buffer, after the bytes of the
already-accumulated items. -/
theorem drainLoop_conserve (fuel : Nat) : ∀ s acc ok, (∀ x ∈ s.data, x < 256) →
    (drainLoop fuel s acc ok).2.2 = true →
    ((drainLoop fuel s acc ok).1.map itemBytes).flatten
      ++ (drainLoop fuel s acc ok).2.1.data
    = (acc.reverse.map itemBytes).flatten ++ s.data := by
  induction fuel with
  | zero =>
    intro s acc ok wf hok
    rfl
  | succ n ih =>
    intro s acc ok wf hok
    rw [drainLoop] at hok ⊢
    rcases hr : readitemFn s with ⟨s1, rr⟩
    rw [hr] at hok
    dsimp only at hok ⊢
    obtain ⟨hpres, hitem⟩ := readitem_step s s1 rr wf hr
    rcases rr with it | _ | _
    · dsimp only at hok ⊢
      obtain ⟨k, hk1, hk2, hk3, hk4⟩ := hitem it rfl
      have hok0 := drainLoop_ok n s1 (it :: acc) _ hok
      have hclean : (itemBytes it).length = k := by
        rw [Bool.and_eq_true] at hok0
        have h2 := of_decide_eq_true hok0.2
        omega
      have hbytes : itemBytes it = s.data.take k := hk4 hclean
      have wf1 : ∀ x ∈ s1.data, x < 256 := by
        rw [hk2]
        intro x hx
        exact wf x (List.drop_subset _ _ hx)
      have hrec := ih s1 (it :: acc) _ wf1 hok
      rw [hrec, hk2]
      simp only [List.reverse_cons, List.map_append, List.flatten_append, List.map_cons,
        List.map_nil, List.flatten_cons, List.flatten_nil, List.append_nil, List.append_assoc,
        hbytes]
      rw [List.take_append_drop]
    · dsimp only at hok ⊢
      obtain ⟨e1, _⟩ := hpres (Or.inl rfl)
      rw [e1]
    · dsimp only at hok ⊢
      obtain ⟨e1, _⟩ := hpres (Or.inr rfl)
      rw [e1]


/-- C3 (counterexample): on the input `[0]` — a single trailing byte
followed by EOF — `readitem` returns "need more data" unchanged (fewer
than 4 buffered bytes return early even at EOF, src/mp3frame/sync.py
lines 196-197), so no item is ever produced and the concatenated item
bytes are `[]`, not `[0]`: the claimed inclusion of trailing bytes
shorter than 4 bytes at EOF fails. -/
theorem C3_counterexample_trailing_bytes_lost :
    readitemFn (initFeed [0]) = (initFeed [0], .needData)
    ∧ (drain 5 [0]).1 = []
    ∧ ((drain 5 [0]).1.map itemBytes).flatten ≠ [0]
    ∧ (initFeed [0]).read_eof = true := by
  decide

/-- C3 (amended): byte conservation of the physical frame splitter.
Whenever the drain loop's clean flag holds (every emitted item carried
exactly as many bytes as its `readitem` call consumed — automatic for
tag and garbage items, and violated by a frame only through a stale
free-format `base_framesize`), the emitted items' bytes concatenated in
emission order, followed by the bytes still buffered, reproduce the
input exactly.  The still-buffered suffix is genuinely needed: trailing
bytes shorter than 4 bytes at EOF are never emitted. -/
theorem C3_byte_conservation (b : List Nat) (fuel : Nat)
    (hwf : ∀ x ∈ b, x < 256)
    (hok : (drain fuel b).2.2 = true) :
    ((drain fuel b).1.map itemBytes).flatten ++ (drain fuel b).2.1.data = b := by
  have h := drainLoop_conserve fuel (initFeed b) [] true hwf hok
  simpa using h


set_option maxRecDepth 8000 in
/-- C3 witness: the conservation theorem applied to the concrete MPEG1
Layer 3 stream of S1 (valid header plus 417 zero bytes), drained with
fuel 5: the emitted items (one frame, one garbage run) are all clean and
their bytes followed by the empty leftover buffer reproduce the input. -/
theorem C3_byte_conservation_witness :
    (∀ x ∈ [0xff, 0xfb, 0x90, 0x00] ++ List.replicate 417 0, x < 256)
    ∧ (drain 5 ([0xff, 0xfb, 0x90, 0x00] ++ List.replicate 417 0)).2.2 = true
    ∧ ((drain 5 ([0xff, 0xfb, 0x90, 0x00] ++ List.replicate 417 0)).1.map itemBytes).flatten
        ++ (drain 5 ([0xff, 0xfb, 0x90, 0x00] ++ List.replicate 417 0)).2.1.data
      = [0xff, 0xfb, 0x90, 0x00] ++ List.replicate 417 0 :=
  ⟨by decide, by decide,
   C3_byte_conservation ([0xff, 0xfb, 0x90, 0x00] ++ List.replicate 417 0) 5
     (by decide) (by decide)⟩

end Mp3
